import Mathlib

set_option maxRecDepth 65536

/-!
# Verification of the agentic-ux-proto core

A shallow embedding, in Lean 4, of the core of the `agentic-ux-proto`
repository: the issue synthesis and scoring engine (`src/synthesis/prioritize.ts`),
the issue fingerprint (`issueDigest` in `src/synthesis/digest.ts`, packaged at the
end of `src/synthesis/summary.ts`), the job pipeline orchestrator
(`src/jobs/jobRunner.ts` / `enqueueJob` with the engine wrappers of
`src/engines.ts`), the HTTP crawler (`src/agents/crawl.http.ts`), the
`/api/analyze` request handler (`src/index.ts`), and the run-history diff
(`src/store/jsonStore.ts`, whose source is not part of this snapshot and is
therefore modelled from the specification).

Numbers: the TypeScript code uses JS doubles; every numeric value that the
verified properties touch is a small integer or an exact decimal, so machine
floats are modelled by `ℚ` (metric values) and `ℤ` (severity / impact /
effort / score).  A nullable JS number is modelled by `Option ℚ`; JS coerces
`null` to `0` in an ordering comparison, which `numGt` reproduces.
-/

namespace AgenticUX

/-! ## Data model (`src/jobs/types.ts`) -/

/-- Source `IssueType = 'perf' | 'a11y' | 'seo' | 'flow'`. -/
inductive IssueType where
  | perf
  | a11y
  | seo
  | flow
deriving DecidableEq, Repr

/-- Source `Metric` from `types.ts` (the optional `threshold`/`unit` fields are never
written nor read by the core and are omitted). -/
structure Metric where
  name : String
  value : Option ℚ
deriving DecidableEq, Repr

/-- Source `Issue` from `types.ts`.  `createId()` produces a random run-local
identifier that no property constrains; it is modelled by the constant `""`. -/
structure Issue where
  id : String := ""
  type : IssueType
  pageUrl : Option String := none
  title : String
  evidence : String
  ruleId : Option String := none
  wcag : Option String := none
  metric : Option Metric := none
  severity : ℤ
  impact : ℤ
  effort : ℤ
  score : ℤ
  fixSteps : List String
deriving DecidableEq, Repr

/-- Source `PageRun.meta`. -/
structure PageMeta where
  title : Option String := none
  description : Option String := none
  h1 : Option String := none
deriving DecidableEq, Repr

/-- One entry of `lhr.audits`: the scoring engine reads only `numericValue`,
which `perf.lighthouse.ts` sets to a number or `null` (modelled `none`). -/
structure AuditEntry where
  numericValue : Option ℚ
deriving DecidableEq, Repr

/-- The three named audit slots read by the scoring engine
(`largest-contentful-paint`, `interactive`, `cumulative-layout-shift`). -/
structure LhrAudits where
  lcp : Option AuditEntry := none
  interactive : Option AuditEntry := none
  cls : Option AuditEntry := none
deriving DecidableEq, Repr

/-- The `lhr` blob: the scoring engine reads `p.lhr?.audits` only. -/
structure Lhr where
  audits : Option LhrAudits := none
deriving DecidableEq, Repr

/-- Source `AxeNode` from `types.ts`. -/
structure AxeNode where
  target : List String
deriving DecidableEq, Repr

/-- Source `AxeViolation` from `types.ts`; `impact` is one of
`'minor' | 'moderate' | 'serious' | 'critical'` when present. -/
structure AxeViolation where
  id : String
  impact : Option String := none
  description : String
  nodes : List AxeNode
  wcag : Option String := none
deriving DecidableEq, Repr

/-- Source `p.axe` with its `violations` list. -/
structure AxeResult where
  violations : List AxeViolation
deriving DecidableEq, Repr

/-- Source `PageRun` (artifact path fields, never read by the core, are omitted). -/
structure PageRun where
  url : String
  links : List String
  lhr : Option Lhr := none
  axe : Option AxeResult := none
  meta : Option PageMeta := none
deriving DecidableEq, Repr

/-- Source `JourneyStep` from `types.ts`. -/
structure JourneyStep where
  action : String
  selector : Option String := none
  ok : Bool
  t : ℚ
  screenshotPath : Option String := none
  error : Option String := none
deriving DecidableEq, Repr

/-- Source `Journey` from `types.ts`; `typeof j.failedAt === 'number'` becomes
`j.failedAt.isSome`. -/
structure Journey where
  name : String
  steps : List JourneyStep
  totalTime : ℚ
  failedAt : Option ℕ := none
deriving DecidableEq, Repr

/-! ## Scoring engine (`src/synthesis/prioritize.ts`, full variant with the
SEO section) -/

/-- The code points `String.prototype.trim` removes (WhiteSpace and
LineTerminator of the ECMAScript spec). -/
def isJsWhitespace (c : Char) : Bool :=
  let n := c.toNat
  n = 9 || n = 10 || n = 11 || n = 12 || n = 13 || n = 32 || n = 160 || n = 65279 ||
  n = 5760 || (8192 ≤ n && n ≤ 8202) || n = 8232 || n = 8233 || n = 8239 ||
  n = 8287 || n = 12288

/-- JS `s.trim()`. -/
def jsTrim (s : String) : String :=
  String.mk (((s.data.dropWhile isJsWhitespace).reverse.dropWhile isJsWhitespace).reverse)

/-- JS `s.toLowerCase()` (ASCII-faithful; no theorem lowercases anything
beyond ASCII). -/
def jsToLower (s : String) : String :=
  String.mk (s.data.map Char.toLower)

/-- Source `String.prototype.split` on a one-character separator. -/
def splitOnChar (sep : Char) : List Char → List (List Char)
  | [] => [[]]
  | c :: rest =>
    if c = sep then [] :: splitOnChar sep rest
    else match splitOnChar sep rest with
      | h :: t => (c :: h) :: t
      | [] => [[c]]

/-- First occurrence of `pat` inside a character list: the part before it
and the part after it. -/
def findSub (pat : List Char) : List Char → Option (List Char × List Char)
  | [] => if pat.isEmpty then some ([], []) else none
  | c :: rest =>
    if pat.isPrefixOf (c :: rest) then some ([], (c :: rest).drop pat.length)
    else match findSub pat rest with
      | some (pre, post) => some (c :: pre, post)
      | none => none

/-- JS `value > c` where `value` may be `null` (which JS coerces to `0`). -/
def numGt (v : Option ℚ) (c : ℚ) : Bool :=
  decide (v.getD 0 > c)

/-- Source `severityFromPerf` (prioritize.ts lines 4–21). -/
def severityFromPerf (metric : String) (value : Option ℚ) : ℤ :=
  if metric = "largest-contentful-paint" then
    if numGt value 4000 then 5 else if numGt value 2500 then 4 else 2
  else if metric = "interactive" then
    if numGt value 400 then 4 else if numGt value 200 then 3 else 2
  else if metric = "cumulative-layout-shift" then
    if numGt value (1/4) then 4 else if numGt value (1/10) then 3 else 1
  else 2

/-- Source `effortHeuristic` (prioritize.ts lines 23–30). -/
def effortHeuristic (type : String) : ℤ :=
  if type = "perf" then 2
  else if type = "a11y" then 2
  else if type = "flow" then 3
  else 2

/-- JS template rendering of a possibly-`null` numeric value, used only inside
evidence strings (which no verified property inspects); exact JS float
formatting is not reproduced beyond the integer case. -/
def numStr (v : Option ℚ) : String :=
  match v with
  | none => "null"
  | some q => if q.den = 1 then toString q.num else toString q

/-- The issue pushed for one audit key when its severity reaches the floor
(prioritize.ts lines 42–66). -/
def perfIssueForKey (p : PageRun) (key : String) (a : AuditEntry) : List Issue :=
  let sev := severityFromPerf key a.numericValue
  if sev ≥ 3 then
    let impact : ℤ := if key = "largest-contentful-paint" then 5
      else if key = "interactive" then 4 else 3
    let effort := effortHeuristic "perf"
    let score := sev * impact - effort
    let title := if key = "largest-contentful-paint" then "High LCP (slow hero)"
      else if key = "interactive" then "High INP (slow interactions)"
      else "High CLS (layout shifts)"
    let fixSteps := if key = "largest-contentful-paint" then
        ["Inline critical CSS", "Preload hero image & font", "Defer non-critical JS"]
      else if key = "interactive" then
        ["Reduce long tasks (>50ms)", "Defer analytics until idle", "Use event delegation"]
      else ["Reserve image/ads slots", "Avoid injecting content above-the-fold"]
    [{ type := IssueType.perf, pageUrl := some p.url, title := title,
       evidence := key ++ "=" ++ numStr a.numericValue,
       metric := some { name := key, value := a.numericValue },
       severity := sev, impact := impact, effort := effort, score := score,
       fixSteps := fixSteps }]
  else []

/-- The performance issues of one page: the loop over the three audit keys,
skipping absent entries (prioritize.ts lines 36–69). -/
def perfIssuesOf (p : PageRun) : List Issue :=
  match p.lhr.bind Lhr.audits with
  | none => []
  | some audits =>
    (match audits.lcp with
     | none => []
     | some a => perfIssueForKey p "largest-contentful-paint" a) ++
    (match audits.interactive with
     | none => []
     | some a => perfIssueForKey p "interactive" a) ++
    (match audits.cls with
     | none => []
     | some a => perfIssueForKey p "cumulative-layout-shift" a)

/-- Source `viol.nodes[0]?.target?.[0] || 'unknown target'`. -/
def violTarget (viol : AxeViolation) : String :=
  let t := ((viol.nodes.head?.bind fun n => n.target.head?).getD "")
  if t = "" then "unknown target" else t

/-- One accessibility issue per violation (prioritize.ts lines 72–97). -/
def a11yIssueOf (p : PageRun) (viol : AxeViolation) : Issue :=
  let sev : ℤ := if viol.impact = some "critical" then 5
    else if viol.impact = some "serious" then 4 else 3
  let impact : ℤ := 4
  let effort := effortHeuristic "a11y"
  { type := IssueType.a11y, pageUrl := some p.url, title := viol.id,
    evidence := viol.description ++ " at " ++ violTarget viol,
    ruleId := some viol.id, wcag := viol.wcag,
    severity := sev, impact := impact, effort := effort,
    score := sev * impact - effort,
    fixSteps := [if viol.id = "image-alt" then "Add meaningful alt text to images"
                 else "Fix contrast to meet 4.5:1",
                 "Verify with axe + screen reader"] }

/-- The accessibility issues of one page (`p.axe?.violations || []`). -/
def a11yIssuesOf (p : PageRun) : List Issue :=
  ((p.axe.map AxeResult.violations).getD []).map (a11yIssueOf p)

/-- Source `(p.meta?.title || '')` and friends. -/
def metaTitle (p : PageRun) : String := ((p.meta.bind PageMeta.title).getD "")

def metaH1 (p : PageRun) : String := ((p.meta.bind PageMeta.h1).getD "")

def metaDescription (p : PageRun) : String :=
  ((p.meta.bind PageMeta.description).getD "")

/-- The trimmed page title used both by the SEO checks and the duplicate-title
grouping. -/
def trimmedTitle (p : PageRun) : String := jsTrim (metaTitle p)

/-- Helper constructing an SEO issue (all SEO branches share
`effortHeuristic('seo') = 2` and the uniform score formula). -/
def mkSeoIssue (u : String) (title evidence : String) (sev impact : ℤ) (fix : List String) : Issue :=
  { type := IssueType.seo, pageUrl := some u, title := title, evidence := evidence,
    severity := sev, impact := impact, effort := 2, score := sev * impact - 2,
    fixSteps := fix }

/-- The per-page SEO issues, in emission order (prioritize.ts lines 114–163). -/
def seoIssuesOf (p : PageRun) : List Issue :=
  let title := trimmedTitle p
  let h1 := jsTrim (metaH1 p)
  let desc := jsTrim (metaDescription p)
  (if title = "" then
      [mkSeoIssue p.url "Missing <title>" "Page lacks a <title> tag" 4 3
        ["Add a concise, descriptive title (30–65 chars)"]]
    else
      (if title.length < 15 then
          [mkSeoIssue p.url "Short title" ("Title length=" ++ toString title.length) 3 2
            ["Expand title with primary keyphrase"]]
        else []) ++
      (if title.length > 65 then
          [mkSeoIssue p.url "Long title" ("Title length=" ++ toString title.length) 3 2
            ["Trim title to ~60 chars"]]
        else [])) ++
  (if h1 = "" then
      [mkSeoIssue p.url "Missing H1" "No <h1> detected" 3 3
        ["Add a single, descriptive H1 heading"]]
    else []) ++
  (if desc = "" then
      [mkSeoIssue p.url "Missing meta description" "No meta description found" 3 2
        ["Add 120–160 char meta description with CTA"]]
    else if desc.length > 180 then
      [mkSeoIssue p.url "Long meta description"
        ("Meta description length=" ++ toString desc.length) 2 2
        ["Trim to ~155 chars to avoid truncation"]]
    else [])

/-- Source `Map.set` on a JS `Map` keyed by title: an existing key keeps its
position and gets the url appended, a new key is appended at the end. -/
def upsertTitle : List (String × List String) → String → String → List (String × List String)
  | [], t, u => [(t, [u])]
  | (t', us) :: rest, t, u =>
    if t' = t then (t', us ++ [u]) :: rest else (t', us) :: upsertTitle rest t u

/-- One iteration of the grouping loop: a page with an empty trimmed title
is skipped, otherwise its url is appended to its title's group. -/
def titleStep (m : List (String × List String)) (p : PageRun) :
    List (String × List String) :=
  let t := trimmedTitle p
  if t = "" then m else upsertTitle m t p.url

/-- Source `titleToPages` (prioritize.ts lines 104–112): insertion-ordered grouping of
page urls by trimmed non-empty title. -/
def titleToPages (pages : List PageRun) : List (String × List String) :=
  pages.foldl titleStep []

/-- One duplicate-title issue (prioritize.ts lines 168–173). -/
def mkDupIssue (t : String) (n : ℕ) (u : String) : Issue :=
  { type := IssueType.seo, pageUrl := some u, title := "Duplicate title across pages",
    evidence := "Title \"" ++ t ++ "\" appears on " ++ toString n ++ " pages",
    severity := 3, impact := 3, effort := 2, score := 3 * 3 - 2,
    fixSteps := ["Differentiate titles per page purpose"] }

/-- The duplicate-title issues: one per affected url, iterating the title
groups in insertion order (prioritize.ts lines 166–175). -/
def dupIssuesOf (pages : List PageRun) : List Issue :=
  (titleToPages pages).flatMap fun g =>
    if 1 < g.2.length then g.2.map (mkDupIssue g.1 g.2.length) else []

/-- Source `journeys.puppeteer.ts` only ever sets `failedAt` to an in-range step
index, so `j.steps[j.failedAt]` is modelled by `getD` with an inert default. -/
def defaultStep : JourneyStep := { action := "", ok := false, t := 0 }

/-- One journey-failure issue (prioritize.ts lines 178–197). -/
def flowIssuesOf (journeys : List Journey) : List Issue :=
  journeys.flatMap fun j =>
    match j.failedAt with
    | none => []
    | some i =>
      let step := j.steps.getD i defaultStep
      let sev : ℤ := 5
      let impact : ℤ := 5
      let effort := effortHeuristic "flow"
      let errTxt := (step.error.getD "")
      [{ type := IssueType.flow, title := "Journey failure: " ++ j.name,
         evidence := "Failed at step #" ++ toString (i + 1) ++ ": " ++ step.action ++
           " (" ++ (if errTxt = "" then "unknown" else errTxt) ++ ")",
         severity := sev, impact := impact, effort := effort,
         score := sev * impact - effort,
         fixSteps := ["Reproduce failure", "Check client-side validation",
           "Handle server-side errors gracefully"] }]

/-- The issue list in encounter (generation) order, before ranking:
performance, accessibility, per-page SEO, duplicate titles, journeys. -/
def generatedIssues (pages : List PageRun) (journeys : List Journey) : List Issue :=
  pages.flatMap perfIssuesOf ++
  pages.flatMap a11yIssuesOf ++
  pages.flatMap seoIssuesOf ++
  dupIssuesOf pages ++
  flowIssuesOf journeys

/-- The ordering of `issues.sort((a, b) => b.score - a.score)`: `a` may stay
before `b` iff `b.score ≤ a.score`. -/
def scoreGE (a b : Issue) : Prop := b.score ≤ a.score

instance : DecidableRel scoreGE := fun a b => inferInstanceAs (Decidable (b.score ≤ a.score))

instance : IsTotal Issue scoreGE := ⟨fun a b => le_total b.score a.score⟩

instance : IsTrans Issue scoreGE := ⟨fun _ _ _ h h' => le_trans h' h⟩

/-- Source `prioritize` (prioritize.ts lines 32–124 / the full variant lines 32–202):
generation followed by the ECMAScript-mandated *stable* sort with comparator
`(a, b) => b.score - a.score`.  A stable sort sorted by that comparator is
unique, and `List.insertionSort scoreGE` is stable and sorted by it. -/
def prioritize (pages : List PageRun) (journeys : List Journey) : List Issue :=
  List.insertionSort scoreGE (generatedIssues pages journeys)

/-! ## Issue fingerprint (`issueDigest`, packaged at the end of
`src/synthesis/summary.ts`) -/

/-- Source `2 ^ 32`, the word modulus of SHA-1 arithmetic. -/
def w32 : ℕ := 4294967296

/-- A 32-bit left rotation (operands kept below `w32`). -/
def rotl (n x : ℕ) : ℕ := ((x <<< n) % w32) ||| (x >>> (32 - n))

/-- Standard UTF-8 encoding of one code point, as `crypto.createHash('sha1')
.update(s)` consumes the string. -/
def utf8EncodeChar (c : Char) : List ℕ :=
  let n := c.toNat
  if n < 128 then [n]
  else if n < 2048 then [192 + n / 64, 128 + n % 64]
  else if n < 65536 then [224 + n / 4096, 128 + (n / 64) % 64, 128 + n % 64]
  else [240 + n / 262144, 128 + (n / 4096) % 64, 128 + (n / 64) % 64, 128 + n % 64]

/-- The UTF-8 bytes of a string. -/
def utf8Bytes (s : String) : List ℕ := s.data.flatMap utf8EncodeChar

/-- Big-endian 64-bit byte rendering of the bit length. -/
def be64 (n : ℕ) : List ℕ :=
  [(n >>> 56) % 256, (n >>> 48) % 256, (n >>> 40) % 256, (n >>> 32) % 256,
   (n >>> 24) % 256, (n >>> 16) % 256, (n >>> 8) % 256, n % 256]

/-- SHA-1 padding: `0x80`, zeros to 56 mod 64, then the message bit length. -/
def sha1Pad (msg : List ℕ) : List ℕ :=
  let L := msg.length
  msg ++ [128] ++ List.replicate ((119 - L % 64) % 64) 0 ++ be64 (8 * L)

/-- Split the padded message into 64-byte blocks (structurally, on a fuel
that the caller sets to the message length). -/
def chunksAux : ℕ → List ℕ → List (List ℕ)
  | 0, _ => []
  | _, [] => []
  | fuel + 1, bs => bs.take 64 :: chunksAux fuel (bs.drop 64)

/-- The 64-byte blocks of the padded message. -/
def chunks64 (bs : List ℕ) : List (List ℕ) :=
  chunksAux bs.length bs

/-- Four big-endian bytes to one 32-bit word. -/
def beWord (a b c d : ℕ) : ℕ := ((a * 256 + b) * 256 + c) * 256 + d

/-- The sixteen 32-bit words of one block. -/
def blockWords : List ℕ → List ℕ
  | a :: b :: c :: d :: rest => beWord a b c d :: blockWords rest
  | _ => []

/-- Message-schedule expansion of a block's 16 words to 80. -/
def expandW (ws : Array ℕ) : Array ℕ :=
  (List.range 64).foldl
    (fun ws _ =>
      let i := ws.size
      ws.push (rotl 1 (ws.getD (i - 3) 0 ^^^ ws.getD (i - 8) 0 ^^^
        ws.getD (i - 14) 0 ^^^ ws.getD (i - 16) 0)))
    ws

/-- The five SHA-1 chaining words. -/
structure Sha1State where
  a0 : ℕ
  b0 : ℕ
  c0 : ℕ
  d0 : ℕ
  e0 : ℕ

/-- Per-round logical function. -/
def sha1F (t b c d : ℕ) : ℕ :=
  if t < 20 then (b &&& c) ||| ((b ^^^ 4294967295) &&& d)
  else if t < 40 then b ^^^ c ^^^ d
  else if t < 60 then (b &&& c) ||| (b &&& d) ||| (c &&& d)
  else b ^^^ c ^^^ d

/-- Per-round constant. -/
def sha1K (t : ℕ) : ℕ :=
  if t < 20 then 1518500249
  else if t < 40 then 1859775393
  else if t < 60 then 2400959708
  else 3395469782

/-- SHA-1 compression of one 64-byte block. -/
def sha1Block (st : Sha1State) (block : List ℕ) : Sha1State :=
  let ws := expandW (Array.mk (blockWords block))
  let r := (List.range 80).foldl
    (fun (x : ℕ × ℕ × ℕ × ℕ × ℕ) t =>
      let temp := (rotl 5 x.1 + sha1F t x.2.1 x.2.2.1 x.2.2.2.1 + x.2.2.2.2 +
        sha1K t + ws.getD t 0) % w32
      (temp, x.1, rotl 30 x.2.1, x.2.2.1, x.2.2.2.1))
    (st.a0, st.b0, st.c0, st.d0, st.e0)
  { a0 := (st.a0 + r.1) % w32, b0 := (st.b0 + r.2.1) % w32,
    c0 := (st.c0 + r.2.2.1) % w32, d0 := (st.d0 + r.2.2.2.1) % w32,
    e0 := (st.e0 + r.2.2.2.2) % w32 }

/-- The SHA-1 initialization vector. -/
def sha1Init : Sha1State :=
  ⟨1732584193, 4023233417, 2562383102, 271733878, 3285377520⟩

/-- Lowercase hex digit. -/
def hexDigit (n : ℕ) : Char :=
  if n < 10 then Char.ofNat (48 + n) else Char.ofNat (87 + n)

/-- Eight lowercase hex digits of one 32-bit word. -/
def hex8 (x : ℕ) : List Char :=
  (List.range 8).map fun i => hexDigit ((x >>> (28 - 4 * i)) % 16)

/-- Source `crypto.createHash('sha1').update(·).digest('hex')`. -/
def sha1Hex (msg : List ℕ) : String :=
  let st := (chunks64 (sha1Pad msg)).foldl sha1Block sha1Init
  String.mk (hex8 st.a0 ++ hex8 st.b0 ++ hex8 st.c0 ++ hex8 st.d0 ++ hex8 st.e0)

/-- Source `hash` from digest.ts: the SHA-1 hex digest truncated to 16 characters. -/
def hash (s : String) : String :=
  String.mk ((sha1Hex (utf8Bytes s)).toList.take 16)

/-- Whether `new URL(s)` succeeds.  Modelled from the spec: the platform
WHATWG URL parser is not part of the sources; a string with a nonempty
`scheme://` head parses.  Every verified property either compares normalized
urls for equality or uses urls already in normal form. -/
def urlParses (s : String) : Bool :=
  match findSub "://".data s.data with
  | some (pre, post) => !pre.isEmpty && !post.isEmpty
  | none => false

/-- Drop everything from the first occurrence of `c` on. -/
def stripAfter (c : Char) (s : String) : String :=
  String.mk (s.toList.takeWhile fun x => x ≠ c)

/-- Source `normUrl` from digest.ts: empty input gives `''`; a parsable url has its
fragment and query string stripped (`x.hash = ''; x.search = ''; x.href`);
an unparsable one is returned unchanged.  Serialization of a parsed url is
modelled as the identity on the remainder. -/
def normUrl (u : Option String) : String :=
  let s := u.getD ""
  if s = "" then ""
  else if urlParses s then stripAfter '?' (stripAfter '#' s)
  else s

/-- The `'perf' | 'a11y' | 'seo' | 'flow'` tag string. -/
def typeStr : IssueType → String
  | IssueType.perf => "perf"
  | IssueType.a11y => "a11y"
  | IssueType.seo => "seo"
  | IssueType.flow => "flow"

/-- Source `(i.title || '').toLowerCase().slice(0, 48)` (ASCII-faithful: JS
lowercases by Unicode and slices UTF-16 units; every title in the sources
and in the theorems below is ASCII). -/
def titleKey (t : String) : String := String.mk ((jsToLower t).data.take 48)

/-- The `keyParts` list built by `issueDigest` (digest.ts lines 211–227):
note that for accessibility issues *both* `ruleId` and `wcag` are pushed. -/
def keyParts (i : Issue) : List String :=
  let base := [typeStr i.type, normUrl i.pageUrl]
  match i.type with
  | IssueType.a11y => base ++ [i.ruleId.getD "", i.wcag.getD ""]
  | IssueType.perf => base ++ [(i.metric.map Metric.name).getD ""]
  | IssueType.seo => base ++ [titleKey i.title]
  | IssueType.flow => base ++ [titleKey i.title]

/-- Source `issueDigest` (digest.ts lines 211–229). -/
def issueDigest (i : Issue) : String :=
  hash (String.intercalate "|" (keyParts i))

/-- Source `Array.from(new Set(xs))`: deduplication keeping first occurrences. -/
def jsSetDedup (l : List String) : List String :=
  l.foldl (fun acc s => if s ∈ acc then acc else acc ++ [s]) []

/-- Source `digestsForIssues` (digest.ts lines 231–233). -/
def digestsForIssues (issues : List Issue) : List String :=
  jsSetDedup (issues.map issueDigest)

/-! ## Job pipeline orchestrator (`enqueueJob` in `src/jobs/jobRunner.ts`,
together with the collaborator wrappers of `src/engines.ts`) -/

/-- Source `Job.status`. -/
inductive JobStatus where
  | queued
  | running
  | done
  | error
deriving DecidableEq, Repr

/-- The outcome of an awaited JS promise: fulfilled or rejected (the
captured message is `e?.message || String(e)`). -/
inductive CallOutcome (α : Type) where
  | ok (a : α)
  | reject (msg : String)

/-- Behavior of a dynamically imported optional collaborator as seen through
its `engines.ts` wrapper.  `unavailable`: the `import()` throws, the
wrapper's `catch` runs and the fallback is returned.  `call o`: the import
succeeds and the collaborator's promise settles with outcome `o`.  The
wrappers execute `return collaborator(...)` *inside* `try`, and in a JS
async function the rejection of a returned promise happens after the `try`
body has been left, so it is NOT intercepted: it reaches the awaiting
caller (`enqueueJob`). -/
inductive WrapperBehavior (α : Type) where
  | unavailable
  | call (o : CallOutcome α)

/-- Source `runLighthouseAudit` (engines.ts lines 10–18): an import failure is
skipped silently; the collaborator mutates the pages in place (modelled as a
function on the page list); a rejection of the returned promise propagates. -/
def runLighthouseAudit (b : WrapperBehavior (List PageRun → List PageRun))
    (pages : List PageRun) : CallOutcome (List PageRun) :=
  match b with
  | WrapperBehavior.unavailable => CallOutcome.ok pages
  | WrapperBehavior.call (CallOutcome.ok f) => CallOutcome.ok (f pages)
  | WrapperBehavior.call (CallOutcome.reject m) => CallOutcome.reject m

/-- Source `runAxeAudit` (engines.ts lines 20–28), same shape. -/
def runAxeAudit (b : WrapperBehavior (List PageRun → List PageRun))
    (pages : List PageRun) : CallOutcome (List PageRun) :=
  match b with
  | WrapperBehavior.unavailable => CallOutcome.ok pages
  | WrapperBehavior.call (CallOutcome.ok f) => CallOutcome.ok (f pages)
  | WrapperBehavior.call (CallOutcome.reject m) => CallOutcome.reject m

/-- Source `runJourneysAgent` (engines.ts lines 30–48): an import failure writes a
best-effort log and returns `[]`; a rejection of the returned promise
propagates. -/
def runJourneysAgent (b : WrapperBehavior (List Journey)) : CallOutcome (List Journey) :=
  match b with
  | WrapperBehavior.unavailable => CallOutcome.ok []
  | WrapperBehavior.call (CallOutcome.ok js) => CallOutcome.ok js
  | WrapperBehavior.call (CallOutcome.reject m) => CallOutcome.reject m

/-- One competitor benchmark target. -/
structure BenchTarget where
  url : String
  origin : String
  page : Option PageRun := none

/-- The evidence and issues attached to a finished job. -/
structure JobOutputs where
  pages : List PageRun
  issues : List Issue
  journeys : List Journey
  benchTargets : List BenchTarget

/-- One `store.updateJob(id, patch)` call: absent fields leave the job
unchanged (`{ ...cur, ...patch }`). -/
structure JobPatch where
  status : Option JobStatus := none
  progress : Option ℤ := none
  stage : Option String := none
  outputs : Option JobOutputs := none
  errorMsg : Option String := none

/-- The observable job state (`JobStore.updateJob`, jobStore.ts lines
27–33, merges patches over the current record). -/
structure JobState where
  status : JobStatus
  progress : ℤ
  stage : Option String := none
  outputs : Option JobOutputs := none
  errorMsg : Option String := none

/-- Source `{ ...cur, ...patch }`. -/
def applyPatch (j : JobState) (p : JobPatch) : JobState :=
  { status := p.status.getD j.status,
    progress := p.progress.getD j.progress,
    stage := p.stage <|> j.stage,
    outputs := p.outputs <|> j.outputs,
    errorMsg := p.errorMsg <|> j.errorMsg }

/-- Source `createJob` (jobStore.ts lines 7–21): status `queued`, progress `0`. -/
def initialJob : JobState := { status := JobStatus.queued, progress := 0 }

/-- The `catch` patch of `enqueueJob` (jobRunner.ts line 82): status and
stage become `error`, the message is captured, progress is NOT written. -/
def errPatch (m : String) : JobPatch :=
  { status := some JobStatus.error, stage := some "error", errorMsg := some m }

/-- The behavior of one pipeline run's collaborators.  `enrich` is the
browser meta-enrichment block (jobRunner.ts lines 21–33), which is wrapped
in its own try/catch at every level and therefore total; `crawl` is
`runCrawler`, which has no wrapper catch, so any outcome is possible. -/
structure PipelineBehavior where
  crawl : CallOutcome (List PageRun)
  enrich : List PageRun → List PageRun
  lighthouse : WrapperBehavior (List PageRun → List PageRun)
  axe : WrapperBehavior (List PageRun → List PageRun)
  bench : CallOutcome (List BenchTarget)
  journeys : WrapperBehavior (List Journey)

/-- The ordered `updateJob` patches written by one run of `enqueueJob`
(jobRunner.ts lines 9–85).  `safeWriteText` swallows every error
(util/fs.ts) and `recordRun` is wrapped in `try {} catch {}`, so neither can
throw; the storyboard/synthesis steps are pure. -/
def runPipelinePatches (b : PipelineBehavior) (competitors : List String) : List JobPatch :=
  let p1 : JobPatch :=
    { status := some JobStatus.running, progress := some 1, stage := some "crawl" }
  match b.crawl with
  | CallOutcome.reject m => [p1, errPatch m]
  | CallOutcome.ok pages0 =>
    let p2 : JobPatch := { progress := some 25, stage := some "perf" }
    let pages1 := b.enrich pages0
    match runLighthouseAudit b.lighthouse pages1 with
    | CallOutcome.reject m => [p1, p2, errPatch m]
    | CallOutcome.ok pages2 =>
      let p3 : JobPatch := { progress := some 45, stage := some "a11y" }
      match runAxeAudit b.axe pages2 with
      | CallOutcome.reject m => [p1, p2, p3, errPatch m]
      | CallOutcome.ok pages3 =>
        let p4 : JobPatch := { progress := some 65, stage := some "bench" }
        let benchTargets :=
          if competitors = [] then []
          else match b.bench with
            | CallOutcome.ok ts => ts
            | CallOutcome.reject _ => []
        let p5 : JobPatch := { progress := some 70, stage := some "journeys" }
        match runJourneysAgent b.journeys with
        | CallOutcome.reject m => [p1, p2, p3, p4, p5, errPatch m]
        | CallOutcome.ok js =>
          let p6 : JobPatch := { progress := some 85, stage := some "synthesis" }
          let issues := prioritize pages3 js
          let pDone : JobPatch :=
            { status := some JobStatus.done, progress := some 100, stage := some "done",
              outputs := some ({ pages := pages3, issues := issues,
                                 journeys := js,
                                 benchTargets := benchTargets } : JobOutputs) }
          [p1, p2, p3, p4, p5, p6, pDone]

/-- The job state after the run. -/
def finalJob (b : PipelineBehavior) (competitors : List String) : JobState :=
  (runPipelinePatches b competitors).foldl applyPatch initialJob

/-- The sequence of progress values held by the job over its lifetime:
`createJob`'s `0` followed by every progress value a patch writes. -/
def progressTrace (b : PipelineBehavior) (competitors : List String) : List ℤ :=
  initialJob.progress :: (runPipelinePatches b competitors).filterMap JobPatch.progress

/-! ## HTTP crawler (`crawlHttp` in `src/agents/crawl.http.ts`) -/

/-- Modelled from the spec: `sameOrigin` lives in `src/util/url.ts`, which is
not part of this snapshot.  Per the spec glossary the origin is the
`scheme+host` grouping key; a string without a parsable origin matches
nothing. -/
def origin? (s : String) : Option String :=
  match findSub "://".data s.data with
  | some (pre, post) =>
    if pre.isEmpty || post.isEmpty then none
    else some (String.mk (pre ++ "://".data ++
      post.takeWhile fun c => !(c == '/' || c == '?' || c == '#')))
  | none => none

/-- Same scheme+host. -/
def sameOrigin (a b : String) : Bool :=
  match origin? a, origin? b with
  | some x, some y => decide (x = y)
  | _, _ => false

/-- Source `new URL(h); u.hash = ''; u.href` on a link, and the start-url
normalization (crawl.http.ts lines 87–89 and 112): fragment stripping, with
an unparsable string kept unchanged. -/
def stripFragment (s : String) : String :=
  if urlParses s then String.mk (s.toList.takeWhile fun x => x ≠ '#') else s

/-- Abstraction of `fetchHtml` plus the pure regex extraction helpers: a
fetch either yields no usable html (`none` — network error, non-ok status,
non-html content type) or the extracted head metadata together with the
deduplicated absolute hrefs `extractLinks` produced. -/
structure FetchedDoc where
  title : Option String := none
  description : Option String := none
  h1 : Option String := none
  rawLinks : List String := []

/-- The network as a function from url to fetch result. -/
def Net : Type := String → Option FetchedDoc

/-- The filtered same-origin link list of one fetched page
(crawl.http.ts lines 112–115): fragment-strip, drop empties, keep the
base origin. -/
def linksOf (base : String) (doc : Option FetchedDoc) : List String :=
  match doc with
  | none => []
  | some d =>
    ((d.rawLinks.map stripFragment).filter fun l => l ≠ "").filter (sameOrigin base)

/-- The crawl BFS loop (crawl.http.ts lines 92–126): pop, skip visited and
foreign origins, fetch, record the page, enqueue unvisited links while under
the depth limit, stop at the page cap. -/
def crawlLoop (net : Net) (startUrl base : String) (maxDepth maxPages : ℕ)
    (pages : List PageRun) (visited : List String) (q : List (String × ℕ)) :
    List PageRun :=
  match q with
  | [] => pages
  | (url, depth) :: q' =>
    if url ∈ visited then
      crawlLoop net startUrl base maxDepth maxPages pages visited q'
    else
      let visited' := url :: visited
      if ¬ sameOrigin startUrl url then
        crawlLoop net startUrl base maxDepth maxPages pages visited' q'
      else
        let doc := net url
        let links := linksOf base doc
        let page : PageRun :=
          { url := url, links := jsSetDedup links,
            meta := some ({ title := doc.bind FetchedDoc.title,
                            description := doc.bind FetchedDoc.description,
                            h1 := doc.bind FetchedDoc.h1 } : PageMeta) }
        if maxPages ≤ (pages ++ [page]).length then pages ++ [page]
        else
          crawlLoop net startUrl base maxDepth maxPages (pages ++ [page]) visited'
            (if depth < maxDepth then
              q' ++ (links.filter fun l => l ∉ visited').map fun l => (l, depth + 1)
            else q')
termination_by (maxPages - pages.length, q.length)
decreasing_by
  · exact Prod.Lex.right _ (by simp)
  · exact Prod.Lex.right _ (by simp)
  · apply Prod.Lex.left
    rename_i hle
    simp only [List.length_append, List.length_cons, List.length_nil] at hle ⊢
    omega

/-- Source `crawlHttp(startUrl, maxDepth, maxPages = 20)`: `none` when
`new URL(startUrl)` throws (the returned promise rejects). -/
def crawlHttp (net : Net) (startUrl : String) (maxDepth : ℕ) (maxPages : ℕ := 20) :
    Option (List PageRun) :=
  if urlParses startUrl then
    let start := stripFragment startUrl
    some (crawlLoop net startUrl start maxDepth maxPages [] [] [(start, 0)])
  else none

/-! ## `/api/analyze` handler (`src/index.ts` lines 59–88) -/

/-- A JS number for the handler's arithmetic: `NaN` or an exact value. -/
inductive JSNum where
  | nan
  | num (q : ℚ)
deriving DecidableEq, Repr

/-- Source `Math.min(a, b)` with a possibly-NaN first operand. -/
def jsMin (a : JSNum) (b : ℚ) : JSNum :=
  match a with
  | JSNum.nan => JSNum.nan
  | JSNum.num x => JSNum.num (min x b)

/-- Source `Math.max(a, b)` with a possibly-NaN second operand. -/
def jsMax (a : ℚ) (b : JSNum) : JSNum :=
  match b with
  | JSNum.nan => JSNum.nan
  | JSNum.num x => JSNum.num (max a x)

/-- The JSON scalar shapes a parsed request body can hold where the handler
reads `payload.maxDepth` (arrays behave like `object` for truthiness; their
`Number` conversion is not needed by any theorem and is folded into
`object`). -/
inductive JVal where
  | null
  | bool (b : Bool)
  | num (q : ℚ)
  | str (s : String)
  | object
deriving DecidableEq, Repr

/-- JS truthiness of a JSON value. -/
def truthy : JVal → Bool
  | JVal.null => false
  | JVal.bool b => b
  | JVal.num q => decide (q ≠ 0)
  | JVal.str s => decide (s ≠ "")
  | JVal.object => true

/-- Value of a digit character. -/
def digitVal (c : Char) : ℕ := c.toNat - 48

/-- The natural number denoted by a digit list. -/
def natOfDigits (cs : List Char) : ℕ :=
  cs.foldl (fun acc c => 10 * acc + digitVal c) 0

/-- An unsigned decimal literal `digits [ '.' digits ]` with at least one
digit, as JS `Number(string)` accepts (hex, exponent and `Infinity` forms
are not modelled; no theorem uses them). -/
def parseUnsignedDecimal (cs : List Char) : Option ℚ :=
  let ip := cs.takeWhile Char.isDigit
  let rest := cs.dropWhile Char.isDigit
  match rest with
  | [] => if ip.isEmpty then none else some (natOfDigits ip : ℚ)
  | '.' :: fr =>
    if fr.all Char.isDigit && !(ip.isEmpty && fr.isEmpty) then
      some ((natOfDigits ip : ℚ) + (natOfDigits fr : ℚ) / (10 ^ fr.length : ℚ))
    else none
  | _ => none

/-- A decimal literal with optional sign. -/
def parseDecimal (cs : List Char) : Option ℚ :=
  match cs with
  | '-' :: rest => (parseUnsignedDecimal rest).map Neg.neg
  | '+' :: rest => parseUnsignedDecimal rest
  | _ => parseUnsignedDecimal cs

/-- JS `Number(v)` on a JSON value: `null → 0`, booleans to `0/1`, a string
is trimmed and parsed (`'' → 0`, non-numeric → NaN), a plain object → NaN. -/
def toNumber : JVal → JSNum
  | JVal.null => JSNum.num 0
  | JVal.bool b => JSNum.num (if b then 1 else 0)
  | JVal.num q => JSNum.num q
  | JVal.str s =>
    let t := jsTrim s
    if t = "" then JSNum.num 0
    else match parseDecimal t.data with
      | some q => JSNum.num q
      | none => JSNum.nan
  | JVal.object => JSNum.nan

/-- Source `Math.max(1, Math.min(Number(payload.maxDepth || 2), 3))`
(index.ts line 64). -/
def computeMaxDepth (requested : Option JVal) : JSNum :=
  let v := match requested with
    | some j => if truthy j then j else JVal.num 2
    | none => JVal.num 2
  jsMax 1 (jsMin (toNumber v) 3)

/-- Source `/^https?:\/\//i.test(s)`. -/
def isHttpUrl (s : String) : Bool :=
  "http://".data.isPrefixOf (jsToLower s).data ||
  "https://".data.isPrefixOf (jsToLower s).data

/-- The shape of `payload.competitors`: absent/falsy, an array of strings,
or a comma-separated string. -/
inductive CompetitorsField where
  | absent
  | arr (xs : List String)
  | str (s : String)
deriving DecidableEq, Repr

/-- index.ts lines 70–76: trim each candidate, keep those matching the
http(s) prefix test, and retain at most the first three. -/
def parseCompetitors : CompetitorsField → Option (List String)
  | CompetitorsField.absent => none
  | CompetitorsField.arr xs => some (((xs.map jsTrim).filter isHttpUrl).take 3)
  | CompetitorsField.str s =>
    if s = "" then none
    else some (((((splitOnChar ',' s.data).map String.mk).map jsTrim).filter
      isHttpUrl).take 3)

/-- The request fields the handler reads; `url` is `String(payload.url || '')`
already stringified. -/
structure AnalyzeRequest where
  url : Option String := none
  maxDepth : Option JVal := none
  competitors : CompetitorsField := CompetitorsField.absent

/-- The observable outcome of the handler: a `400` with no job created, or a
created job's option fields. -/
inductive AnalyzeResult where
  | badRequest
  | created (url : String) (maxDepth : JSNum) (competitors : Option (List String))
deriving DecidableEq, Repr

/-- The `/api/analyze` handler (index.ts lines 59–88): validation of the
target url happens before any job is created. -/
def analyzeHandler (r : AnalyzeRequest) : AnalyzeResult :=
  let targetUrl := jsTrim (r.url.getD "")
  let maxDepth := computeMaxDepth r.maxDepth
  let competitors := parseCompetitors r.competitors
  if targetUrl = "" ∨ ¬ isHttpUrl targetUrl then AnalyzeResult.badRequest
  else AnalyzeResult.created targetUrl maxDepth competitors

/-- Membership of a JS number in a closed rational range (false for NaN). -/
def jsNumInRange (n : JSNum) (lo hi : ℚ) : Prop :=
  ∃ q, n = JSNum.num q ∧ lo ≤ q ∧ q ≤ hi

/-! ## Run-history diff — `src/store/jsonStore.ts` is not part of this
source snapshot (only its import sites and callers are), so the diff engine
is modelled from the spec. -/

/-- Modelled from the spec: the part of `RunMeta` the diff touches — the run
id and its digest set. -/
structure RunMeta where
  id : String
  digests : Finset String

/-- Modelled from the spec: the `{added, removed, unchanged}` digest sets. -/
structure DiffResult where
  added : Finset String
  removed : Finset String
  unchanged : Finset String
deriving DecidableEq

/-- Look a run up by id. -/
def findRun (runs : List RunMeta) (id : String) : Option RunMeta :=
  runs.find? fun r => r.id = id

/-- Modelled from the spec: `diff(runIdA, runIdB)` — `added` = digests in B
not in A, `removed` = digests in A not in B, `unchanged` = digests in both;
an unknown run id on either side gives empty sets instead of throwing. -/
def diffRuns (runs : List RunMeta) (idA idB : String) : DiffResult :=
  match findRun runs idA, findRun runs idB with
  | some a, some b =>
    { added := b.digests \ a.digests,
      removed := a.digests \ b.digests,
      unchanged := a.digests ∩ b.digests }
  | _, _ => { added := ∅, removed := ∅, unchanged := ∅ }

/-! ## Statement-support definitions and concrete example inputs -/

/-- The per-category component that, together with the category and the
normalized url, actually determines the digest key.  For accessibility
issues it is the *pair* `(ruleId, wcag)` — digest.ts pushes both. -/
def discriminator (i : Issue) : List String :=
  match i.type with
  | IssueType.a11y => [i.ruleId.getD "", i.wcag.getD ""]
  | IssueType.perf => [(i.metric.map Metric.name).getD ""]
  | IssueType.seo => [titleKey i.title]
  | IssueType.flow => [titleKey i.title]

/-- The urls of the pages whose trimmed title is `t`, in page order. -/
def urlsFor (t : String) (pages : List PageRun) : List String :=
  (pages.filter fun q => decide (trimmedTitle q = t)).map PageRun.url

/-- First-match lookup in the insertion-ordered title grouping. -/
def titleLookup (m : List (String × List String)) (t : String) : Option (List String) :=
  (m.find? fun g => decide (g.1 = t)).map Prod.snd

/-- An accessibility issue as produced by the scoring engine for an
`image-alt` violation, used as concrete input below. -/
def exA11yIssue (wcag : Option String) (sev : ℤ) (ev : String) : Issue :=
  { type := IssueType.a11y, pageUrl := some "https://example.com/",
    title := "image-alt", evidence := ev, ruleId := some "image-alt",
    wcag := wcag, severity := sev, impact := 4, effort := 2,
    score := sev * 4 - 2, fixSteps := [] }

/-- A page whose only signal is a 4200-unit largest-contentful-paint. -/
def exSlowPage : PageRun :=
  { url := "https://example.com/", links := [],
    lhr := some { audits := some { lcp := some { numericValue := some 4200 } } } }

/-- A page matching the clean-page scenario: 20-char title, present h1,
140-char meta description, 1800-unit load delay. -/
def exCleanPage : PageRun :=
  { url := "https://example.com/", links := [],
    lhr := some { audits := some { lcp := some { numericValue := some 1800 } } },
    meta := some { title := some "ABCDEFGHIJKLMNOPQRST", h1 := some "Hello",
                   description := some (String.mk (List.replicate 140 'd')) } }

/-- Two pages sharing one identical non-empty title. -/
def exDupPageA : PageRun :=
  { url := "https://a.example/", links := [],
    meta := some { title := some "Same Title Here", h1 := some "x", description := some "y" } }

def exDupPageB : PageRun :=
  { url := "https://b.example/", links := [],
    meta := some { title := some "Same Title Here", h1 := some "x", description := some "y" } }

/-- A pipeline behavior whose performance collaborator imports fine but
rejects at call time; everything else is healthy. -/
def exRejectingPerf : PipelineBehavior :=
  { crawl := CallOutcome.ok [], enrich := id,
    lighthouse := WrapperBehavior.call (CallOutcome.reject "lighthouse rejected"),
    axe := WrapperBehavior.unavailable, bench := CallOutcome.ok [],
    journeys := WrapperBehavior.unavailable }

/-- A pipeline behavior with every optional collaborator unavailable and a
successful crawl. -/
def exAllSkipped : PipelineBehavior :=
  { crawl := CallOutcome.ok [exCleanPage], enrich := id,
    lighthouse := WrapperBehavior.unavailable,
    axe := WrapperBehavior.unavailable,
    bench := CallOutcome.reject "bench boom",
    journeys := WrapperBehavior.unavailable }

/-- A small two-page site for the crawler witness. -/
def exNet : Net := fun u =>
  if u = "https://site.test/" then
    some { title := some "Home",
           rawLinks := ["https://site.test/a#x", "https://site.test/a#y",
             "https://other.test/b", "https://site.test/c"] }
  else if u = "https://site.test/a" then some { rawLinks := ["https://site.test/"] }
  else none

/-- The run-diff scenario of the spec: A = {x, y}, B = {y, z}. -/
def exRuns : List RunMeta :=
  [{ id := "A", digests := {"x", "y"} }, { id := "B", digests := {"y", "z"} }]

/-- The predicate picking the load-delay performance issues of one page. -/
def isLcpPerfIssueFor (u : String) (i : Issue) : Bool :=
  decide (i.type = IssueType.perf) && decide (i.pageUrl = some u) &&
  decide ((i.metric.map Metric.name) = some "largest-contentful-paint")

/-- The issue the scoring engine emits for a 4200-unit load delay on `u`. -/
def exLcpIssue (u : String) : Issue :=
  { type := IssueType.perf, pageUrl := some u, title := "High LCP (slow hero)",
    evidence := "largest-contentful-paint=4200",
    metric := some { name := "largest-contentful-paint", value := some 4200 },
    severity := 5, impact := 5, effort := 2, score := 23,
    fixSteps := ["Inline critical CSS", "Preload hero image & font", "Defer non-critical JS"] }

/-- The predicate picking duplicate-title issues. -/
def isDupTitleIssue (i : Issue) : Bool :=
  decide (i.type = IssueType.seo) && decide (i.title = "Duplicate title across pages")

/-- A concrete analyze request: padded url, out-of-range maxDepth, five
competitor candidates of which four match the http(s) test. -/
def exAnalyzeReq : AnalyzeRequest :=
  { url := some " https://ok.example ",
    maxDepth := some (JVal.num 7),
    competitors := CompetitorsField.arr
      ["https://a.example", "nope", "HTTP://b.example",
       "https://c.example", "https://d.example"] }

/-! # Theorems -/

/-! ## Stability of the score sort -/

theorem filter_orderedInsert_neg {p : Issue → Bool} {a : Issue} (l : List Issue)
    (ha : p a = false) :
    (List.orderedInsert scoreGE a l).filter p = l.filter p := by
  rw [List.orderedInsert_eq_take_drop, List.filter_append,
    List.filter_cons_of_neg (by simp [ha]), ← List.filter_append,
    List.takeWhile_append_dropWhile]

theorem filter_orderedInsert_pos {p : Issue → Bool} {s : ℤ} {a : Issue} :
    ∀ {l : List Issue}, p a = true → a.score = s →
      (∀ b ∈ l, p b = true → b.score = s) →
      (List.orderedInsert scoreGE a l).filter p = a :: l.filter p := by
  intro l
  induction l with
  | nil => intro ha _ _; simp [List.orderedInsert, ha]
  | cons b t ih =>
    intro ha hsc hl
    by_cases hr : scoreGE a b
    · have step : List.orderedInsert scoreGE a (b :: t) = a :: b :: t := by
        simp [List.orderedInsert, hr]
      rw [step, List.filter_cons_of_pos (by simp [ha])]
    · have hb : p b = false := by
        by_contra hb'
        have hbs : b.score = s := hl b (List.mem_cons_self b t) (by simpa using hb')
        exact hr (by simp [scoreGE, hbs, hsc])
      have step : List.orderedInsert scoreGE a (b :: t) =
          b :: List.orderedInsert scoreGE a t := by
        simp [List.orderedInsert, hr]
      rw [step, List.filter_cons_of_neg (by simp [hb]),
        ih ha hsc (fun c hc => hl c (List.mem_cons_of_mem b hc)),
        List.filter_cons_of_neg (by simp [hb])]

theorem filter_insertionSort_const_score (p : Issue → Bool) (s : ℤ) :
    ∀ l : List Issue, (∀ b ∈ l, p b = true → b.score = s) →
      (List.insertionSort scoreGE l).filter p = l.filter p
  | [], _ => rfl
  | a :: t, hl => by
    have ht : ∀ b ∈ t, p b = true → b.score = s :=
      fun b hb => hl b (List.mem_cons_of_mem a hb)
    show (List.orderedInsert scoreGE a (List.insertionSort scoreGE t)).filter p = _
    by_cases hpa : p a
    · rw [filter_orderedInsert_pos hpa (hl a (List.mem_cons_self a t) hpa)
        (fun b hb => ht b ((List.mem_insertionSort scoreGE).mp hb)),
        filter_insertionSort_const_score p s t ht,
        List.filter_cons_of_pos (by simp [hpa])]
    · rw [filter_orderedInsert_neg _ (by simpa using hpa),
        filter_insertionSort_const_score p s t ht,
        List.filter_cons_of_neg (by simpa using hpa)]

/-! ## Shape of the generated issues, per segment -/

theorem mem_perfIssueForKey {q : PageRun} {k : String} {a : AuditEntry} {i : Issue}
    (hi : i ∈ perfIssueForKey q k a) :
    i.type = IssueType.perf ∧ i.pageUrl = some q.url ∧
      i.metric = some { name := k, value := a.numericValue } := by
  unfold perfIssueForKey at hi
  by_cases hs : severityFromPerf k a.numericValue ≥ 3
  · rw [if_pos hs] at hi
    simp only [List.mem_singleton] at hi
    subst hi
    exact ⟨rfl, rfl, rfl⟩
  · rw [if_neg hs] at hi
    simp at hi

theorem mem_perfIssuesOf {q : PageRun} {i : Issue} (hi : i ∈ perfIssuesOf q) :
    i.type = IssueType.perf ∧ i.pageUrl = some q.url ∧ i.metric.isSome := by
  have key : ∀ k (oa : Option AuditEntry),
      i ∈ (match oa with
           | none => ([] : List Issue)
           | some a => perfIssueForKey q k a) →
      i.type = IssueType.perf ∧ i.pageUrl = some q.url ∧ i.metric.isSome := by
    intro k oa hm
    rcases oa with _ | a
    · simp at hm
    · obtain ⟨h1, h2, h3⟩ := mem_perfIssueForKey hm
      exact ⟨h1, h2, by rw [h3]; rfl⟩
  unfold perfIssuesOf at hi
  split at hi
  · simp at hi
  · simp only [List.mem_append] at hi
    rcases hi with (hi | hi) | hi
    · exact key _ _ hi
    · exact key _ _ hi
    · exact key _ _ hi

theorem mem_a11yIssuesOf {q : PageRun} {i : Issue} (hi : i ∈ a11yIssuesOf q) :
    i.type = IssueType.a11y := by
  unfold a11yIssuesOf at hi
  simp only [List.mem_map] at hi
  obtain ⟨v, _, rfl⟩ := hi
  rfl

theorem mem_seoIssuesOf {q : PageRun} {i : Issue} (hi : i ∈ seoIssuesOf q) :
    i.type = IssueType.seo ∧ i.title ≠ "Duplicate title across pages" := by
  have himp : ∀ u t e (sv im : ℤ) f, i = mkSeoIssue u t e sv im f →
      i.type = IssueType.seo ∧ i.title = t := by
    intro u t e sv im f h
    subst h
    exact ⟨rfl, rfl⟩
  unfold seoIssuesOf at hi
  rcases List.mem_append.mp hi with hAB | hC
  · rcases List.mem_append.mp hAB with hA | hB
    · split at hA
      · simp only [List.mem_singleton] at hA
        obtain ⟨h1, h2⟩ := himp _ _ _ _ _ _ hA
        exact ⟨h1, by rw [h2]; decide⟩
      · rcases List.mem_append.mp hA with hA1 | hA1 <;> split at hA1 <;>
          first
          | exact absurd hA1 (List.not_mem_nil i)
          | (simp only [List.mem_singleton] at hA1
             obtain ⟨h1, h2⟩ := himp _ _ _ _ _ _ hA1
             exact ⟨h1, by rw [h2]; decide⟩)
    · split at hB
      · simp only [List.mem_singleton] at hB
        obtain ⟨h1, h2⟩ := himp _ _ _ _ _ _ hB
        exact ⟨h1, by rw [h2]; decide⟩
      · exact absurd hB (List.not_mem_nil i)
  · split at hC
    · simp only [List.mem_singleton] at hC
      obtain ⟨h1, h2⟩ := himp _ _ _ _ _ _ hC
      exact ⟨h1, by rw [h2]; decide⟩
    · split at hC
      · simp only [List.mem_singleton] at hC
        obtain ⟨h1, h2⟩ := himp _ _ _ _ _ _ hC
        exact ⟨h1, by rw [h2]; decide⟩
      · exact absurd hC (List.not_mem_nil i)

theorem mem_dupIssuesOf {pages : List PageRun} {i : Issue} (hi : i ∈ dupIssuesOf pages) :
    i.type = IssueType.seo ∧ i.title = "Duplicate title across pages" ∧ i.score = 7 := by
  unfold dupIssuesOf at hi
  simp only [List.mem_flatMap] at hi
  obtain ⟨g, _, hi⟩ := hi
  split at hi
  · simp only [List.mem_map] at hi
    obtain ⟨u, _, rfl⟩ := hi
    exact ⟨rfl, rfl, rfl⟩
  · simp at hi

theorem mem_flowIssuesOf {js : List Journey} {i : Issue} (hi : i ∈ flowIssuesOf js) :
    i.type = IssueType.flow ∧ i.pageUrl = none := by
  unfold flowIssuesOf at hi
  simp only [List.mem_flatMap] at hi
  obtain ⟨j, _, hi⟩ := hi
  split at hi
  · simp at hi
  · simp only [List.mem_singleton] at hi
    subst hi
    exact ⟨rfl, rfl⟩

theorem flatMap_eq_of_filter_singleton {α β : Type} {l : List α} {h : α → Bool} {x : α}
    (g : α → List β) (hf : l.filter h = [x]) (hg : ∀ a ∈ l, h a = false → g a = []) :
    l.flatMap g = g x := by
  induction l with
  | nil => simp at hf
  | cons a t ih =>
    by_cases ha : h a
    · rw [List.filter_cons_of_pos ha] at hf
      obtain ⟨rfl, hnil⟩ : a = x ∧ t.filter h = [] := by
        constructor
        · exact (List.cons.injEq _ _ _ _ ▸ hf).1.symm ▸ rfl
        · exact (List.cons.injEq _ _ _ _ ▸ hf).2
      have htail : t.flatMap g = [] := by
        rw [List.flatMap_eq_nil_iff]
        intro b hb
        by_cases hbh : h b
        · exact absurd (List.mem_filter.mpr ⟨hb, hbh⟩) (by simp [hnil])
        · exact hg b (List.mem_cons_of_mem a hb) (by simpa using hbh)
      simp [List.flatMap_cons, htail]
    · rw [List.filter_cons_of_neg ha] at hf
      rw [List.flatMap_cons, hg a (List.mem_cons_self a t) (by simpa using ha),
        List.nil_append]
      exact ih hf fun b hb => hg b (List.mem_cons_of_mem a hb)

/-! ## C5: sort guarantee -/

/-- Claim C5: for every input, `prioritize` returns the generated issues
sorted by non-increasing score (`scoreGE`), and for every score value the
issues carrying it appear in exactly their encounter (generation) order. -/
theorem C5_sorted_and_stable (pages : List PageRun) (journeys : List Journey) :
    List.Sorted scoreGE (prioritize pages journeys) ∧
    ∀ s : ℤ, (prioritize pages journeys).filter (fun i => decide (i.score = s)) =
      (generatedIssues pages journeys).filter (fun i => decide (i.score = s)) := by
  constructor
  · exact List.sorted_insertionSort scoreGE _
  · intro s
    exact filter_insertionSort_const_score _ s _ fun b _ hb => by simpa using hb

/-! ## C4: slow-hero scenario -/

theorem filter_perfIssueForKey_ne (q : PageRun) (k : String) (a : AuditEntry)
    (u : String) (hk : k ≠ "largest-contentful-paint") :
    (perfIssueForKey q k a).filter (isLcpPerfIssueFor u) = [] := by
  rw [List.filter_eq_nil_iff]
  intro i hi hpi
  obtain ⟨_, _, h3⟩ := mem_perfIssueForKey hi
  simp [isLcpPerfIssueFor, h3] at hpi
  exact hk hpi.2

theorem perfIssueForKey_lcp_4200 (q : PageRun) :
    perfIssueForKey q "largest-contentful-paint" { numericValue := some 4200 } =
      [exLcpIssue q.url] := by
  have h5 : severityFromPerf "largest-contentful-paint" (some 4200) = 5 := by decide
  simp only [perfIssueForKey, h5, exLcpIssue, effortHeuristic, numStr]
  norm_num
  decide

/-- Claim C4: in any input in which exactly one page has url `p.url` (namely
`p`) and that page's load-delay metric is 4200, the engine emits exactly one
performance issue for that page and metric, with severity 5, impact 5,
effort 2 and score 23. -/
theorem C4_slow_hero_unique_issue (pages : List PageRun) (journeys : List Journey)
    (p : PageRun) (audits : LhrAudits)
    (haud : p.lhr.bind Lhr.audits = some audits)
    (hlcp : audits.lcp = some { numericValue := some 4200 })
    (huniq : pages.filter (fun q => decide (q.url = p.url)) = [p]) :
    (prioritize pages journeys).filter (isLcpPerfIssueFor p.url) = [exLcpIssue p.url] := by
  have hgen : (generatedIssues pages journeys).filter (isLcpPerfIssueFor p.url) =
      [exLcpIssue p.url] := by
    unfold generatedIssues
    rw [List.filter_append, List.filter_append, List.filter_append, List.filter_append]
    have hA : (pages.flatMap a11yIssuesOf).filter (isLcpPerfIssueFor p.url) = [] := by
      rw [List.filter_eq_nil_iff]
      intro i hi hpi
      obtain ⟨q, _, hq⟩ := List.mem_flatMap.mp hi
      simp [isLcpPerfIssueFor, mem_a11yIssuesOf hq] at hpi
    have hS : (pages.flatMap seoIssuesOf).filter (isLcpPerfIssueFor p.url) = [] := by
      rw [List.filter_eq_nil_iff]
      intro i hi hpi
      obtain ⟨q, _, hq⟩ := List.mem_flatMap.mp hi
      simp [isLcpPerfIssueFor, (mem_seoIssuesOf hq).1] at hpi
    have hD : (dupIssuesOf pages).filter (isLcpPerfIssueFor p.url) = [] := by
      rw [List.filter_eq_nil_iff]
      intro i hi hpi
      simp [isLcpPerfIssueFor, (mem_dupIssuesOf hi).1] at hpi
    have hF : (flowIssuesOf journeys).filter (isLcpPerfIssueFor p.url) = [] := by
      rw [List.filter_eq_nil_iff]
      intro i hi hpi
      simp [isLcpPerfIssueFor, (mem_flowIssuesOf hi).1] at hpi
    have hP : (pages.flatMap perfIssuesOf).filter (isLcpPerfIssueFor p.url) =
        [exLcpIssue p.url] := by
      rw [List.filter_flatMap]
      rw [flatMap_eq_of_filter_singleton _ huniq ?side]
      case side =>
        intro q hq hqf
        rw [List.filter_eq_nil_iff]
        intro i hi hpi
        obtain ⟨_, h2, _⟩ := mem_perfIssuesOf hi
        simp only [isLcpPerfIssueFor, h2, Bool.and_eq_true, decide_eq_true_eq] at hpi
        have : q.url = p.url := Option.some.inj hpi.1.2
        simp [this] at hqf
      simp only [perfIssuesOf, haud, hlcp]
      rw [List.filter_append, List.filter_append]
      rw [perfIssueForKey_lcp_4200]
      have hlcpKeep : (([exLcpIssue p.url]).filter (isLcpPerfIssueFor p.url)) =
          [exLcpIssue p.url] := by
        simp [isLcpPerfIssueFor, exLcpIssue]
      have hInt : (match audits.interactive with
          | none => ([] : List Issue)
          | some a => perfIssueForKey p "interactive" a).filter
            (isLcpPerfIssueFor p.url) = [] := by
        rcases audits.interactive with _ | a
        · rfl
        · exact filter_perfIssueForKey_ne p "interactive" a p.url (by decide)
      have hCls : (match audits.cls with
          | none => ([] : List Issue)
          | some a => perfIssueForKey p "cumulative-layout-shift" a).filter
            (isLcpPerfIssueFor p.url) = [] := by
        rcases audits.cls with _ | a
        · rfl
        · exact filter_perfIssueForKey_ne p "cumulative-layout-shift" a p.url (by decide)
      rw [hlcpKeep, hInt, hCls, List.append_nil, List.append_nil]
    rw [hP, hA, hS, hD, hF]
    simp
  have hperm := (List.perm_insertionSort scoreGE (generatedIssues pages journeys)).filter
    (isLcpPerfIssueFor p.url)
  rw [hgen] at hperm
  exact List.Perm.eq_singleton hperm

/-- Witness for C4 at the concrete slow-hero page. -/
theorem C4_witness :
    (prioritize [exSlowPage] []).filter (isLcpPerfIssueFor exSlowPage.url) =
      [exLcpIssue exSlowPage.url] :=
  C4_slow_hero_unique_issue [exSlowPage] [] exSlowPage
    { lcp := some { numericValue := some 4200 } } rfl rfl (by decide)

/-! ## C6: clean-page scenario -/

/-- Claim C6: a page with a 20-character trimmed title, a present h1, a
140-character meta description and a 1800-unit load delay (and no other
audit signals) contributes zero issues attributed to it, for any journeys. -/
theorem C6_clean_page_zero_issues (p : PageRun) (journeys : List Journey)
    (hlhr : p.lhr = some { audits := some { lcp := some { numericValue := some 1800 },
                                            interactive := none, cls := none } })
    (hax : (p.axe.map AxeResult.violations).getD [] = [])
    (ht : (trimmedTitle p).length = 20)
    (hh1 : jsTrim (metaH1 p) ≠ "")
    (hd : (jsTrim (metaDescription p)).length = 140) :
    (prioritize [p] journeys).filter (fun i => decide (i.pageUrl = some p.url)) = [] := by
  have ht0 : trimmedTitle p ≠ "" := by
    intro h
    rw [h] at ht
    simp at ht
  have hd0 : jsTrim (metaDescription p) ≠ "" := by
    intro h
    rw [h] at hd
    simp at hd
  have hgen : (generatedIssues [p] journeys).filter
      (fun i => decide (i.pageUrl = some p.url)) = [] := by
    unfold generatedIssues
    have h18 : severityFromPerf "largest-contentful-paint" (some 1800) = 2 := by decide
    have hPerf : perfIssuesOf p = [] := by
      simp [perfIssuesOf, hlhr, perfIssueForKey, h18]
    have hA : a11yIssuesOf p = [] := by
      simp [a11yIssuesOf, hax]
    have hSeo : seoIssuesOf p = [] := by
      simp [seoIssuesOf, ht0, hh1, hd0, ht, hd]
    have hDup : dupIssuesOf [p] = [] := by
      have hg : titleToPages [p] = [(trimmedTitle p, [p.url])] := by
        simp [titleToPages, titleStep, ht0, upsertTitle]
      simp [dupIssuesOf, hg]
    have hF : (flowIssuesOf journeys).filter
        (fun i => decide (i.pageUrl = some p.url)) = [] := by
      rw [List.filter_eq_nil_iff]
      intro i hi hpi
      simp [(mem_flowIssuesOf hi).2] at hpi
    simp [List.filter_append, hPerf, hA, hSeo, hDup, hF]
  have hperm := (List.perm_insertionSort scoreGE (generatedIssues [p] journeys)).filter
    (fun i => decide (i.pageUrl = some p.url))
  rw [hgen] at hperm
  exact List.Perm.eq_nil hperm

set_option maxRecDepth 16384 in
/-- Witness for C6 at the concrete clean page. -/
theorem C6_witness :
    (prioritize [exCleanPage] []).filter
      (fun i => decide (i.pageUrl = some exCleanPage.url)) = [] :=
  C6_clean_page_zero_issues exCleanPage [] rfl rfl (by decide) (by decide) (by decide)

/-! ## C3: duplicate-title scenario.  The JS `Map` grouping is characterized
through `titleLookup` (first-match association lookup). -/

theorem titleLookup_nil (t' : String) : titleLookup [] t' = none := rfl

theorem titleLookup_cons (a : String × List String) (m : List (String × List String))
    (t' : String) :
    titleLookup (a :: m) t' = if a.1 = t' then some a.2 else titleLookup m t' := by
  by_cases h : a.1 = t' <;> simp [titleLookup, List.find?_cons, h]

theorem titleLookup_upsert (m : List (String × List String)) (t u t' : String) :
    titleLookup (upsertTitle m t u) t' =
      if t' = t then some ((titleLookup m t).getD [] ++ [u])
      else titleLookup m t' := by
  induction m with
  | nil =>
    by_cases h : t' = t
    · subst h
      simp [upsertTitle, titleLookup_cons, titleLookup_nil]
    · have h' : ¬t = t' := fun hh => h hh.symm
      simp [upsertTitle, titleLookup_cons, titleLookup_nil, h, h']
  | cons a rest ih =>
    obtain ⟨k, us⟩ := a
    by_cases hk : k = t
    · subst hk
      have hstep : upsertTitle ((k, us) :: rest) k u = (k, us ++ [u]) :: rest := by
        simp [upsertTitle]
      rw [hstep]
      by_cases h : t' = k
      · subst h
        simp [titleLookup_cons]
      · have h' : ¬k = t' := fun hh => h hh.symm
        simp [titleLookup_cons, h, h']
    · have hstep : upsertTitle ((k, us) :: rest) t u = (k, us) :: upsertTitle rest t u := by
        simp [upsertTitle, hk]
      rw [hstep]
      by_cases h : k = t'
      · subst h
        simp [titleLookup_cons, hk]
      · simp [titleLookup_cons, ih, hk, h]

theorem keys_upsert (m : List (String × List String)) (t u : String) :
    (upsertTitle m t u).map Prod.fst =
      if t ∈ m.map Prod.fst then m.map Prod.fst else m.map Prod.fst ++ [t] := by
  induction m with
  | nil => simp [upsertTitle]
  | cons a rest ih =>
    obtain ⟨k, us⟩ := a
    by_cases hk : k = t
    · subst hk
      simp [upsertTitle]
    · have hstep : upsertTitle ((k, us) :: rest) t u = (k, us) :: upsertTitle rest t u := by
        simp [upsertTitle, hk]
      rw [hstep]
      have h' : ¬t = k := fun hh => hk hh.symm
      by_cases hm : t ∈ rest.map Prod.fst
      · simp [ih, hm, h']
      · simp [ih, hm, h']

theorem nodup_keys_upsert (m : List (String × List String)) (t u : String)
    (h : (m.map Prod.fst).Nodup) : ((upsertTitle m t u).map Prod.fst).Nodup := by
  rw [keys_upsert]
  by_cases hm : t ∈ m.map Prod.fst
  · simpa [hm] using h
  · simp only [hm, if_false]
    simpa [List.nodup_append, hm] using h

theorem mem_keys_upsert {m : List (String × List String)} {t u k : String}
    (h : k ∈ (upsertTitle m t u).map Prod.fst) : k ∈ m.map Prod.fst ∨ k = t := by
  rw [keys_upsert] at h
  by_cases hm : t ∈ m.map Prod.fst
  · rw [if_pos hm] at h
    exact Or.inl h
  · rw [if_neg hm] at h
    simpa using h

theorem urlsFor_cons (t' : String) (p : PageRun) (rest : List PageRun) :
    urlsFor t' (p :: rest) =
      if trimmedTitle p = t' then p.url :: urlsFor t' rest else urlsFor t' rest := by
  by_cases h : trimmedTitle p = t' <;> simp [urlsFor, List.filter_cons, h]

theorem fold_titleStep_lookupD (pages : List PageRun) :
    ∀ (m : List (String × List String)) (t' : String), t' ≠ "" →
      (titleLookup (pages.foldl titleStep m) t').getD [] =
        (titleLookup m t').getD [] ++ urlsFor t' pages := by
  induction pages with
  | nil =>
    intro m t' _
    simp [urlsFor]
  | cons p rest ih =>
    intro m t' ht'
    rw [List.foldl_cons, urlsFor_cons]
    by_cases h0 : trimmedTitle p = ""
    · have hne : ¬ trimmedTitle p = t' := fun hh => ht' (hh ▸ h0)
      rw [if_neg hne]
      have hstep : titleStep m p = m := by simp [titleStep, h0]
      rw [hstep, ih m t' ht']
    · have hstep : titleStep m p = upsertTitle m (trimmedTitle p) p.url := by
        simp [titleStep, h0]
      rw [hstep]
      by_cases h1 : trimmedTitle p = t'
      · subst h1
        rw [if_pos rfl, ih _ _ ht', titleLookup_upsert, if_pos rfl]
        simp
      · rw [if_neg h1, ih _ _ ht', titleLookup_upsert,
          if_neg fun hh => h1 hh.symm]

theorem fold_titleStep_lookup_none (pages : List PageRun) :
    ∀ (m : List (String × List String)) (t' : String), t' ≠ "" →
      (titleLookup (pages.foldl titleStep m) t' = none ↔
        titleLookup m t' = none ∧ urlsFor t' pages = []) := by
  induction pages with
  | nil =>
    intro m t' _
    simp [urlsFor]
  | cons p rest ih =>
    intro m t' ht'
    rw [List.foldl_cons, urlsFor_cons]
    by_cases h0 : trimmedTitle p = ""
    · have hne : ¬ trimmedTitle p = t' := fun hh => ht' (hh ▸ h0)
      have hstep : titleStep m p = m := by simp [titleStep, h0]
      rw [if_neg hne, hstep, ih m t' ht']
    · have hstep : titleStep m p = upsertTitle m (trimmedTitle p) p.url := by
        simp [titleStep, h0]
      rw [hstep]
      by_cases h1 : trimmedTitle p = t'
      · subst h1
        rw [if_pos rfl, ih _ _ ht', titleLookup_upsert, if_pos rfl]
        simp
      · rw [if_neg h1, ih _ _ ht', titleLookup_upsert,
          if_neg fun hh => h1 hh.symm]

theorem keys_fold_titleStep_nodup (pages : List PageRun) :
    ∀ m, ((m : List (String × List String)).map Prod.fst).Nodup →
      ((pages.foldl titleStep m).map Prod.fst).Nodup := by
  induction pages with
  | nil => intro m h; exact h
  | cons p rest ih =>
    intro m h
    rw [List.foldl_cons]
    apply ih
    unfold titleStep
    by_cases h0 : trimmedTitle p = ""
    · simpa [h0] using h
    · simpa [h0] using nodup_keys_upsert m (trimmedTitle p) p.url h

theorem keys_fold_titleStep_ne_empty (pages : List PageRun) :
    ∀ m, (∀ k ∈ (m : List (String × List String)).map Prod.fst, k ≠ "") →
      ∀ k ∈ (pages.foldl titleStep m).map Prod.fst, k ≠ "" := by
  induction pages with
  | nil => intro m h; exact h
  | cons p rest ih =>
    intro m h
    rw [List.foldl_cons]
    apply ih
    intro k hk
    unfold titleStep at hk
    by_cases h0 : trimmedTitle p = ""
    · rw [if_pos h0] at hk
      exact h k hk
    · rw [if_neg h0] at hk
      rcases mem_keys_upsert hk with hk' | hk'
      · exact h k hk'
      · rw [hk']
        exact h0

theorem mem_of_titleLookup {m : List (String × List String)} {t : String}
    {us : List String} (h : titleLookup m t = some us) : (t, us) ∈ m := by
  unfold titleLookup at h
  obtain ⟨e, he, hes⟩ : ∃ e, m.find? (fun g => decide (g.1 = t)) = some e ∧ e.2 = us := by
    rcases hf : m.find? (fun g => decide (g.1 = t)) with _ | e
    · rw [hf] at h
      simp at h
    · rw [hf] at h
      exact ⟨e, hf, by simpa using h⟩
  have h1 := List.find?_some he
  have h2 := List.mem_of_find?_eq_some he
  have : e.1 = t := by simpa using h1
  have : e = (t, us) := Prod.ext this hes
  rwa [this] at h2

theorem titleLookup_of_mem {m : List (String × List String)}
    {g : String × List String} (hg : g ∈ m) (hnd : (m.map Prod.fst).Nodup) :
    titleLookup m g.1 = some g.2 := by
  induction m with
  | nil => simp at hg
  | cons a rest ih =>
    rcases List.mem_cons.mp hg with rfl | hg'
    · rw [titleLookup_cons, if_pos rfl]
    · rw [titleLookup_cons]
      have hk : a.1 ≠ g.1 := by
        intro hh
        have : g.1 ∈ rest.map Prod.fst := List.mem_map_of_mem Prod.fst hg'
        rw [← hh] at this
        exact (List.nodup_cons.mp (by simpa using hnd)).1 this
      rw [if_neg hk]
      exact ih hg' (List.nodup_cons.mp (by simpa using hnd)).2

theorem titleToPages_def (pages : List PageRun) :
    pages.foldl titleStep [] = titleToPages pages := rfl

theorem titleToPages_entry {pages : List PageRun} {g : String × List String}
    (hg : g ∈ titleToPages pages) : g.1 ≠ "" ∧ g.2 = urlsFor g.1 pages := by
  have hnd : ((titleToPages pages).map Prod.fst).Nodup :=
    keys_fold_titleStep_nodup pages [] (by simp)
  have hne : g.1 ≠ "" :=
    keys_fold_titleStep_ne_empty pages [] (by simp) g.1 (List.mem_map_of_mem Prod.fst hg)
  have hl : titleLookup (titleToPages pages) g.1 = some g.2 := titleLookup_of_mem hg hnd
  have hD := fold_titleStep_lookupD pages [] g.1 hne
  rw [titleLookup_nil, titleToPages_def] at hD
  simp only [Option.getD_none, List.nil_append] at hD
  rw [hl] at hD
  exact ⟨hne, by simpa using hD⟩

theorem titleToPages_mem_of_urls {pages : List PageRun} {t : String}
    (ht : t ≠ "") (hne : urlsFor t pages ≠ []) :
    (t, urlsFor t pages) ∈ titleToPages pages := by
  have hnone := fold_titleStep_lookup_none pages [] t ht
  rw [titleLookup_nil, titleToPages_def] at hnone
  have hsome : titleLookup (titleToPages pages) t ≠ none := by
    intro hcontra
    exact hne ((hnone.mp hcontra).2)
  obtain ⟨us, hus⟩ := Option.ne_none_iff_exists'.mp hsome
  have hD := fold_titleStep_lookupD pages [] t ht
  rw [titleLookup_nil, titleToPages_def] at hD
  simp only [Option.getD_none, List.nil_append] at hD
  rw [hus] at hD
  simp only [Option.getD_some] at hD
  rw [← hD]
  exact mem_of_titleLookup hus

theorem dupIssuesOf_two (pages : List PageRun) (t : String) (q1 q2 : PageRun)
    (ht : t ≠ "")
    (hfil : pages.filter (fun q => decide (trimmedTitle q = t)) = [q1, q2])
    (hothers : ∀ t', t' ≠ "" → t' ≠ t →
      (pages.filter (fun q => decide (trimmedTitle q = t'))).length ≤ 1) :
    dupIssuesOf pages = [mkDupIssue t 2 q1.url, mkDupIssue t 2 q2.url] := by
  have hurls : urlsFor t pages = [q1.url, q2.url] := by
    simp [urlsFor, hfil]
  have hmem : (t, [q1.url, q2.url]) ∈ titleToPages pages := by
    rw [← hurls]
    exact titleToPages_mem_of_urls ht (by rw [hurls]; simp)
  obtain ⟨l1, l2, hsplit⟩ := List.append_of_mem hmem
  have hnd : ((titleToPages pages).map Prod.fst).Nodup :=
    keys_fold_titleStep_nodup pages [] (by simp)
  rw [hsplit] at hnd
  have hsides : ∀ g ∈ l1 ++ l2, g.1 ≠ t := by
    intro g hgm
    have hker : (l1.map Prod.fst ++ t :: l2.map Prod.fst).Nodup := by
      simpa using hnd
    intro hcontra
    rcases List.mem_append.mp hgm with hgm' | hgm'
    · have hin : t ∈ l1.map Prod.fst := hcontra ▸ List.mem_map_of_mem Prod.fst hgm'
      exact (List.nodup_append.mp hker).2.2 hin (List.mem_cons_self t _)
    · have hml : t ∈ l2.map Prod.fst := hcontra ▸ List.mem_map_of_mem Prod.fst hgm'
      exact (List.nodup_cons.mp (List.nodup_append.mp hker).2.1).1 hml
  have hemit : ∀ g ∈ l1 ++ l2,
      (if 1 < g.2.length then g.2.map (mkDupIssue g.1 g.2.length) else []) = [] := by
    intro g hgm
    have hgmem : g ∈ titleToPages pages := by
      rw [hsplit]
      rcases List.mem_append.mp hgm with h | h
      · exact List.mem_append_left _ h
      · exact List.mem_append_right _ (List.mem_cons_of_mem _ h)
    obtain ⟨hne, hval⟩ := titleToPages_entry hgmem
    have hlen : g.2.length ≤ 1 := by
      rw [hval]
      simpa [urlsFor] using hothers g.1 hne (hsides g hgm)
    rw [if_neg (by omega)]
  unfold dupIssuesOf
  rw [hsplit, List.flatMap_append, List.flatMap_cons]
  have h1 : l1.flatMap (fun g =>
      if 1 < g.2.length then g.2.map (mkDupIssue g.1 g.2.length) else []) = [] :=
    List.flatMap_eq_nil_iff.mpr fun g hg => hemit g (List.mem_append_left _ hg)
  have h2 : l2.flatMap (fun g =>
      if 1 < g.2.length then g.2.map (mkDupIssue g.1 g.2.length) else []) = [] :=
    List.flatMap_eq_nil_iff.mpr fun g hg => hemit g (List.mem_append_right _ hg)
  rw [h1, h2]
  simp

/-- Claim C3: when exactly two pages share the (trimmed, non-empty) title `t`
and no other non-empty title is shared, the engine emits exactly two
duplicate-title issues, one per affected page in page order; `mkDupIssue`
carries severity 3, impact 3, effort 2, score 7. -/
theorem C3_duplicate_titles (pages : List PageRun) (journeys : List Journey)
    (t : String) (q1 q2 : PageRun)
    (ht : t ≠ "")
    (hfil : pages.filter (fun q => decide (trimmedTitle q = t)) = [q1, q2])
    (hothers : ∀ t', t' ≠ "" → t' ≠ t →
      (pages.filter (fun q => decide (trimmedTitle q = t'))).length ≤ 1) :
    (prioritize pages journeys).filter isDupTitleIssue =
      [mkDupIssue t 2 q1.url, mkDupIssue t 2 q2.url] := by
  have hdup := dupIssuesOf_two pages t q1 q2 ht hfil hothers
  have hgen : (generatedIssues pages journeys).filter isDupTitleIssue =
      [mkDupIssue t 2 q1.url, mkDupIssue t 2 q2.url] := by
    unfold generatedIssues
    rw [List.filter_append, List.filter_append, List.filter_append, List.filter_append]
    have hP : (pages.flatMap perfIssuesOf).filter isDupTitleIssue = [] := by
      rw [List.filter_eq_nil_iff]
      intro i hi hpi
      obtain ⟨q, _, hq⟩ := List.mem_flatMap.mp hi
      simp [isDupTitleIssue, (mem_perfIssuesOf hq).1] at hpi
    have hA : (pages.flatMap a11yIssuesOf).filter isDupTitleIssue = [] := by
      rw [List.filter_eq_nil_iff]
      intro i hi hpi
      obtain ⟨q, _, hq⟩ := List.mem_flatMap.mp hi
      simp [isDupTitleIssue, mem_a11yIssuesOf hq] at hpi
    have hS : (pages.flatMap seoIssuesOf).filter isDupTitleIssue = [] := by
      rw [List.filter_eq_nil_iff]
      intro i hi hpi
      obtain ⟨q, _, hq⟩ := List.mem_flatMap.mp hi
      obtain ⟨_, hti⟩ := mem_seoIssuesOf hq
      simp [isDupTitleIssue, hti] at hpi
    have hF : (flowIssuesOf journeys).filter isDupTitleIssue = [] := by
      rw [List.filter_eq_nil_iff]
      intro i hi hpi
      simp [isDupTitleIssue, (mem_flowIssuesOf hi).1] at hpi
    have hD : (dupIssuesOf pages).filter isDupTitleIssue = dupIssuesOf pages := by
      rw [List.filter_eq_self]
      intro i hi
      obtain ⟨h1, h2, _⟩ := mem_dupIssuesOf hi
      simp [isDupTitleIssue, h1, h2]
    rw [hP, hA, hS, hD, hF, hdup]
    simp
  have hscore : ∀ b ∈ generatedIssues pages journeys,
      isDupTitleIssue b = true → b.score = 7 := by
    intro b hb hpb
    unfold generatedIssues at hb
    rcases List.mem_append.mp hb with hb' | hb'
    · rcases List.mem_append.mp hb' with hb'' | hb''
      · rcases List.mem_append.mp hb'' with hb3 | hb3
        · rcases List.mem_append.mp hb3 with hb4 | hb4
          · obtain ⟨q, _, hq⟩ := List.mem_flatMap.mp hb4
            simp [isDupTitleIssue, (mem_perfIssuesOf hq).1] at hpb
          · obtain ⟨q, _, hq⟩ := List.mem_flatMap.mp hb4
            simp [isDupTitleIssue, mem_a11yIssuesOf hq] at hpb
        · obtain ⟨q, _, hq⟩ := List.mem_flatMap.mp hb3
          simp [isDupTitleIssue, (mem_seoIssuesOf hq).2] at hpb
      · exact (mem_dupIssuesOf hb'').2.2
    · simp [isDupTitleIssue, (mem_flowIssuesOf hb').1] at hpb
  show (List.insertionSort scoreGE (generatedIssues pages journeys)).filter
    isDupTitleIssue = _
  rw [filter_insertionSort_const_score isDupTitleIssue 7 _ hscore, hgen]

/-- Witness for C3 at the two concrete duplicate-title pages. -/
theorem C3_witness :
    (prioritize [exDupPageA, exDupPageB] []).filter isDupTitleIssue =
      [mkDupIssue "Same Title Here" 2 exDupPageA.url,
       mkDupIssue "Same Title Here" 2 exDupPageB.url] :=
  C3_duplicate_titles [exDupPageA, exDupPageB] [] "Same Title Here"
    exDupPageA exDupPageB (by decide) (by decide)
    (by
      intro t' ht' htne
      have h1 : ¬ trimmedTitle exDupPageA = t' := by
        have hA : trimmedTitle exDupPageA = "Same Title Here" := by decide
        rw [hA]
        exact fun hh => htne hh.symm
      have h2 : ¬ trimmedTitle exDupPageB = t' := by
        have hB : trimmedTitle exDupPageB = "Same Title Here" := by decide
        rw [hB]
        exact fun hh => htne hh.symm
      simp [List.filter_cons, h1, h2])

/-! ## C1: digest key -/

theorem keyParts_eq (i : Issue) :
    keyParts i = [typeStr i.type, normUrl i.pageUrl] ++ discriminator i := by
  unfold keyParts discriminator
  cases i.type <;> rfl

/-- Claim C1 (amended): the digest is a pure function of the category, the
normalized page url and the per-category discriminator — which for
accessibility issues is the *pair* `(ruleId, wcag)` (digest.ts pushes both),
for performance issues the metric name, and for seo/journey issues the
lowercased 48-character title key; in particular the digest never changes
when only `severity`, `score` or `evidence` vary. -/
theorem C1_digest_key :
    (∀ i j : Issue, i.type = j.type → normUrl i.pageUrl = normUrl j.pageUrl →
      discriminator i = discriminator j → issueDigest i = issueDigest j) ∧
    (∀ (i : Issue) (sev sc : ℤ) (ev : String),
      issueDigest { i with severity := sev, score := sc, evidence := ev } =
        issueDigest i) := by
  have hmain : ∀ i j : Issue, i.type = j.type →
      normUrl i.pageUrl = normUrl j.pageUrl →
      discriminator i = discriminator j → issueDigest i = issueDigest j := by
    intro i j hty hurl hdisc
    unfold issueDigest
    rw [keyParts_eq, keyParts_eq, hty, hurl, hdisc]
  refine ⟨hmain, ?_⟩
  intro i sev sc ev
  refine hmain _ _ rfl rfl ?_
  rcases i with ⟨id, ty, pu, ti, evd, ru, wc, me, sv, im, ef, so, fs⟩
  cases ty <;> rfl

/-- Witness for C1: two concrete accessibility issues differing only in
severity, score and evidence have equal digests. -/
theorem C1_witness :
    issueDigest (exA11yIssue (some "WCAG 1.1.1") 4 "Image without alt at img.hero") =
      issueDigest (exA11yIssue (some "WCAG 1.1.1") 3 "other evidence") :=
  C1_digest_key.1 _ _ rfl rfl rfl

/-- Counterexample to C1 *as stated*: two accessibility issues that agree on
category, page url and `ruleId` but differ in `wcag` get different digests,
because digest.ts puts `wcag` into the key as well — the a11y discriminator
is not `ruleId` alone. -/
theorem C1_counterexample :
    (exA11yIssue (some "WCAG 1.1.1") 4 "x").type =
        (exA11yIssue (some "WCAG 1.1.2") 4 "x").type ∧
    normUrl (exA11yIssue (some "WCAG 1.1.1") 4 "x").pageUrl =
        normUrl (exA11yIssue (some "WCAG 1.1.2") 4 "x").pageUrl ∧
    (exA11yIssue (some "WCAG 1.1.1") 4 "x").ruleId =
        (exA11yIssue (some "WCAG 1.1.2") 4 "x").ruleId ∧
    issueDigest (exA11yIssue (some "WCAG 1.1.1") 4 "x") ≠
        issueDigest (exA11yIssue (some "WCAG 1.1.2") 4 "x") := by
  refine ⟨rfl, rfl, rfl, ?_⟩
  decide

/-! ## C2: failure isolation of optional collaborators (corrected) -/

/-- Counterexample to C2 as stated: a performance collaborator that imports
fine but whose returned promise rejects moves the job to `error`, because
the wrapper's `return promise` inside `try` does not intercept an async
rejection. -/
theorem C2_counterexample :
    exRejectingPerf.lighthouse =
        WrapperBehavior.call (CallOutcome.reject "lighthouse rejected") ∧
    (finalJob exRejectingPerf []).status = JobStatus.error ∧
    (finalJob exRejectingPerf []).errorMsg = some "lighthouse rejected" :=
  ⟨rfl, rfl, rfl⟩

/-- Claim C2 (amended): when no optional collaborator's *call* rejects (they
may be arbitrarily unavailable, and the competitor benchmark may fail in
any way), the job errors exactly on crawl failure — with the crawl's
message — and otherwise completes as `done`, with an unavailable journey
runner contributing an empty journey list. -/
theorem C2_optional_failure_isolation (b : PipelineBehavior) (comp : List String)
    (hlh : ∀ m, b.lighthouse ≠ WrapperBehavior.call (CallOutcome.reject m))
    (hax : ∀ m, b.axe ≠ WrapperBehavior.call (CallOutcome.reject m))
    (hjo : ∀ m, b.journeys ≠ WrapperBehavior.call (CallOutcome.reject m)) :
    (∀ m, b.crawl = CallOutcome.reject m →
      (finalJob b comp).status = JobStatus.error ∧
      (finalJob b comp).stage = some "error" ∧
      (finalJob b comp).errorMsg = some m) ∧
    (∀ pages, b.crawl = CallOutcome.ok pages →
      (finalJob b comp).status = JobStatus.done ∧
      (finalJob b comp).progress = 100 ∧
      (b.journeys = WrapperBehavior.unavailable →
        ∃ o, (finalJob b comp).outputs = some o ∧ o.journeys = [])) := by
  obtain ⟨crawl, enrich, lh, axe, bench, jo⟩ := b
  simp only at hlh hax hjo
  constructor
  · rintro m rfl
    simp [finalJob, runPipelinePatches, applyPatch, initialJob, errPatch]
  · rintro pages rfl
    rcases lh with _ | (f1 | m1)
    · rcases axe with _ | (f2 | m2)
      · rcases jo with _ | (js | m3)
        · exact ⟨rfl, rfl, fun _ => ⟨_, rfl, rfl⟩⟩
        · exact ⟨rfl, rfl, fun hj => by simp at hj⟩
        · exact absurd rfl (hjo m3)
      · rcases jo with _ | (js | m3)
        · exact ⟨rfl, rfl, fun _ => ⟨_, rfl, rfl⟩⟩
        · exact ⟨rfl, rfl, fun hj => by simp at hj⟩
        · exact absurd rfl (hjo m3)
      · exact absurd rfl (hax m2)
    · rcases axe with _ | (f2 | m2)
      · rcases jo with _ | (js | m3)
        · exact ⟨rfl, rfl, fun _ => ⟨_, rfl, rfl⟩⟩
        · exact ⟨rfl, rfl, fun hj => by simp at hj⟩
        · exact absurd rfl (hjo m3)
      · rcases jo with _ | (js | m3)
        · exact ⟨rfl, rfl, fun _ => ⟨_, rfl, rfl⟩⟩
        · exact ⟨rfl, rfl, fun hj => by simp at hj⟩
        · exact absurd rfl (hjo m3)
      · exact absurd rfl (hax m2)
    · exact absurd rfl (hlh m1)

/-- Witness for C2 (amended): with every optional collaborator unavailable
and a rejecting benchmark, a job with one competitor still finishes `done`
at progress 100 with no journeys. -/
theorem C2_witness :
    (finalJob exAllSkipped ["https://comp.example"]).status = JobStatus.done ∧
    (finalJob exAllSkipped ["https://comp.example"]).progress = 100 ∧
    ∃ o, (finalJob exAllSkipped ["https://comp.example"]).outputs = some o ∧
      o.journeys = [] := by
  have h := C2_optional_failure_isolation exAllSkipped ["https://comp.example"]
    (fun m hm => by simp [exAllSkipped] at hm)
    (fun m hm => by simp [exAllSkipped] at hm)
    (fun m hm => by simp [exAllSkipped] at hm)
  obtain ⟨hdone, hprog, hjs⟩ := h.2 [exCleanPage] rfl
  exact ⟨hdone, hprog, hjs rfl⟩

/-! ## C7: monotone progress -/

/-- Claim C7: over every possible behavior of the collaborators, the sequence
of progress values a job holds — from `createJob`'s 0 through the terminal
update — is non-decreasing (the error patch writes no progress value). -/
theorem C7_progress_monotone (b : PipelineBehavior) (comp : List String) :
    List.Chain' (· ≤ ·) (progressTrace b comp) := by
  obtain ⟨crawl, enrich, lh, axe, bench, jo⟩ := b
  rcases crawl with pages | m <;>
    rcases lh with _ | (f1 | m1) <;>
    rcases axe with _ | (f2 | m2) <;>
    rcases jo with _ | (js | m3) <;>
    simp [progressTrace, runPipelinePatches, runLighthouseAudit, runAxeAudit,
      runJourneysAgent, errPatch, initialJob]

/-! ## C9: crawler bounds -/

theorem jsSetDedup_aux (l : List String) :
    ∀ acc : List String, acc.Nodup →
      (l.foldl (fun acc s => if s ∈ acc then acc else acc ++ [s]) acc).Nodup ∧
      ∀ x ∈ l.foldl (fun acc s => if s ∈ acc then acc else acc ++ [s]) acc,
        x ∈ acc ∨ x ∈ l := by
  induction l with
  | nil =>
    intro acc hacc
    exact ⟨hacc, fun x hx => Or.inl hx⟩
  | cons s rest ih =>
    intro acc hacc
    rw [List.foldl_cons]
    by_cases hs : s ∈ acc
    · rw [if_pos hs]
      obtain ⟨h1, h2⟩ := ih acc hacc
      exact ⟨h1, fun x hx => (h2 x hx).imp id (List.mem_cons_of_mem s)⟩
    · rw [if_neg hs]
      have hacc' : (acc ++ [s]).Nodup := by
        simp [List.nodup_append, hacc, hs]
      obtain ⟨h1, h2⟩ := ih (acc ++ [s]) hacc'
      refine ⟨h1, fun x hx => ?_⟩
      rcases h2 x hx with hx' | hx'
      · rcases List.mem_append.mp hx' with h | h
        · exact Or.inl h
        · exact Or.inr (by simpa using Or.inl (by simpa using h))
      · exact Or.inr (List.mem_cons_of_mem s hx')

theorem jsSetDedup_nodup (l : List String) : (jsSetDedup l).Nodup :=
  (jsSetDedup_aux l [] (by simp)).1

theorem mem_jsSetDedup {l : List String} {x : String} (hx : x ∈ jsSetDedup l) :
    x ∈ l := by
  rcases (jsSetDedup_aux l [] (by simp)).2 x hx with h | h
  · simp at h
  · exact h

theorem mem_linksOf_sameOrigin {base : String} {doc : Option FetchedDoc}
    {l : String} (hl : l ∈ linksOf base doc) : sameOrigin base l = true := by
  unfold linksOf at hl
  rcases doc with _ | d
  · simp at hl
  · exact List.of_mem_filter hl

theorem crawlLoop_invariant (net : Net) (startUrl base : String)
    (maxDepth maxPages : ℕ) (pages : List PageRun) (visited : List String)
    (q : List (String × ℕ))
    (hlen : pages.length < maxPages)
    (hnd : (pages.map PageRun.url).Nodup)
    (hvis : ∀ u ∈ pages.map PageRun.url, u ∈ visited)
    (hlinks : ∀ p ∈ pages, p.links.Nodup ∧ ∀ l ∈ p.links, sameOrigin base l = true) :
    (crawlLoop net startUrl base maxDepth maxPages pages visited q).length ≤ maxPages ∧
    ((crawlLoop net startUrl base maxDepth maxPages pages visited q).map
      PageRun.url).Nodup ∧
    ∀ p ∈ crawlLoop net startUrl base maxDepth maxPages pages visited q,
      p.links.Nodup ∧ ∀ l ∈ p.links, sameOrigin base l = true := by
  revert hlen hnd hvis hlinks
  induction pages, visited, q using crawlLoop.induct net startUrl base maxDepth maxPages with
  | case1 pages visited =>
    intro hlen hnd _ hlinks
    simp only [crawlLoop]
    exact ⟨Nat.le_of_lt hlen, hnd, hlinks⟩
  | case2 pages visited url depth q' hmem ih =>
    intro hlen hnd hvis hlinks
    simp only [crawlLoop, if_pos hmem]
    exact ih hlen hnd hvis hlinks
  | case3 pages visited url depth q' hmem visited' hso ih =>
    intro hlen hnd hvis hlinks
    simp only [crawlLoop, if_neg hmem, if_pos hso]
    exact ih hlen hnd
      (fun u hu => List.mem_cons_of_mem url (hvis u hu)) hlinks
  | case4 pages visited url depth q' hmem hso doc links page hcap =>
    intro hlen hnd hvis hlinks
    have hcap' : maxPages ≤ pages.length + 1 := by simpa using hcap
    simp only [crawlLoop, if_neg hmem, if_neg hso, List.length_append,
      List.length_cons, List.length_nil, List.length_singleton, if_pos hcap']
    refine ⟨?_, ?_, ?_⟩
    · simpa using hlen
    · have hurl : ∀ x ∈ pages, ¬ x.url = url := fun x hx hh =>
        hmem (hvis url (hh ▸ List.mem_map_of_mem PageRun.url hx))
      simpa [List.nodup_append] using ⟨hnd, hurl⟩
    · intro p hp
      rcases List.mem_append.mp hp with hp' | hp'
      · exact hlinks p hp'
      · have hpeq : p = _ := List.mem_singleton.mp hp'
        subst hpeq
        exact ⟨jsSetDedup_nodup _,
          fun l hl => mem_linksOf_sameOrigin (mem_jsSetDedup hl)⟩
  | case5 pages visited url depth q' hmem visited' hso doc links page hcap ih =>
    intro hlen hnd hvis hlinks
    have hcap' : ¬ maxPages ≤ pages.length + 1 := by simpa using hcap
    simp only [crawlLoop, if_neg hmem, if_neg hso, List.length_append,
      List.length_cons, List.length_nil, List.length_singleton, if_neg hcap']
    have hurl : ∀ x ∈ pages, ¬ x.url = url := fun x hx hh =>
      hmem (hvis url (hh ▸ List.mem_map_of_mem PageRun.url hx))
    refine ih ?_ ?_ ?_ ?_
    · exact Nat.lt_of_not_le hcap
    · simpa [List.nodup_append] using ⟨hnd, hurl⟩
    · intro u hu
      simp only [List.map_append, List.map_cons, List.map_nil] at hu
      rcases List.mem_append.mp hu with hu' | hu'
      · exact List.mem_cons_of_mem url (hvis u hu')
      · simp only [List.mem_singleton] at hu'
        rw [hu']
        exact List.mem_cons_self url visited
    · intro p hp
      rcases List.mem_append.mp hp with hp' | hp'
      · exact hlinks p hp'
      · have hpeq : p = _ := List.mem_singleton.mp hp'
        subst hpeq
        exact ⟨jsSetDedup_nodup _,
          fun l hl => mem_linksOf_sameOrigin (mem_jsSetDedup hl)⟩

/-- Claim C9: whatever the network returns, a crawl that starts at all (the
start url parses — otherwise the crawl promise rejects) returns at most 20
pages (the default `maxPages` cap), records each fetched url exactly once
(page urls are pairwise distinct, and a page is recorded per fetch), and
every recorded `links` list is deduplicated and contains only urls
same-origin with the normalized start url. -/
theorem C9_crawl_bounds (net : Net) (startUrl : String) (maxDepth : ℕ) :
    match crawlHttp net startUrl maxDepth with
    | none => True
    | some pages =>
        pages.length ≤ 20 ∧ (pages.map PageRun.url).Nodup ∧
        ∀ p ∈ pages, p.links.Nodup ∧
          ∀ l ∈ p.links, sameOrigin (stripFragment startUrl) l = true := by
  unfold crawlHttp
  by_cases h : urlParses startUrl = true
  · rw [if_pos h]
    simpa using crawlLoop_invariant net startUrl (stripFragment startUrl) maxDepth 20
      [] [] [(stripFragment startUrl, 0)] (by norm_num) (by simp) (by simp) (by simp)
  · rw [if_neg h]
    trivial

/-! ## C10: `/api/analyze` validation (corrected) -/

theorem computeMaxDepth_range (o : Option JVal) (q : ℚ)
    (h : computeMaxDepth o = JSNum.num q) : 1 ≤ q ∧ q ≤ 3 := by
  have key : ∀ n : JSNum, jsMax 1 (jsMin n 3) = JSNum.num q → 1 ≤ q ∧ q ≤ 3 := by
    intro n hn
    rcases n with _ | x
    · cases hn
    · simp only [jsMin, jsMax, JSNum.num.injEq] at hn
      subst hn
      exact ⟨le_max_left 1 _, max_le (by norm_num) (min_le_right x 3)⟩
  exact key _ h

/-- Counterexample to C10 as stated: a request whose `maxDepth` is the
string `"abc"` creates a job whose maxDepth is NaN
(`Math.max(1, Math.min(NaN, 3)) = NaN`), which lies in no range. -/
theorem C10_counterexample :
    analyzeHandler { url := some "https://example.com",
                     maxDepth := some (JVal.str "abc") } =
      AnalyzeResult.created "https://example.com" JSNum.nan none ∧
    ¬ jsNumInRange JSNum.nan 1 3 := by
  refine ⟨by decide, ?_⟩
  rintro ⟨q, hq, -⟩
  cases hq

/-- Claim C10 (amended): every created job's maxDepth, *when its JS Number
conversion is a number*, is clamped into [1, 3] (a NaN conversion is passed
through as NaN); the retained competitors are exactly
`parseCompetitors` — at most the first three trimmed candidates passing the
http(s) prefix test; and a target url that is empty or fails that test
yields a 400 with no job created. -/
theorem C10_analyze_validation (r : AnalyzeRequest) :
    (∀ u d c, analyzeHandler r = AnalyzeResult.created u d c →
      (∀ q : ℚ, d = JSNum.num q → 1 ≤ q ∧ q ≤ 3) ∧
      c = parseCompetitors r.competitors ∧
      (∀ cs, c = some cs → cs.length ≤ 3 ∧ ∀ x ∈ cs, isHttpUrl x = true) ∧
      u = jsTrim (r.url.getD "") ∧ ¬ u = "" ∧ isHttpUrl u = true) ∧
    ((jsTrim (r.url.getD "") = "" ∨ ¬ isHttpUrl (jsTrim (r.url.getD "")) = true) →
      analyzeHandler r = AnalyzeResult.badRequest) := by
  constructor
  · intro u d c hc
    unfold analyzeHandler at hc
    by_cases hb : jsTrim (r.url.getD "") = "" ∨
        ¬ isHttpUrl (jsTrim (r.url.getD "")) = true
    · rw [if_pos hb] at hc
      cases hc
    · rw [if_neg hb] at hc
      obtain ⟨rfl, rfl, rfl⟩ := AnalyzeResult.created.inj hc.symm
      push_neg at hb
      refine ⟨fun q hq => computeMaxDepth_range _ q hq, rfl, ?_, rfl, hb.1, hb.2⟩
      intro cs hcs
      rcases hcomp : r.competitors with _ | xs | s
      · rw [hcomp] at hcs
        cases hcs
      · rw [hcomp] at hcs
        simp only [parseCompetitors, Option.some.injEq] at hcs
        subst hcs
        refine ⟨List.length_take_le 3 _, fun x hx => ?_⟩
        exact List.of_mem_filter (List.take_subset 3 _ hx)
      · rw [hcomp] at hcs
        by_cases hs : s = ""
        · simp only [parseCompetitors, hs, if_pos rfl] at hcs
          cases hcs
        · simp only [parseCompetitors, if_neg hs, Option.some.injEq] at hcs
          subst hcs
          refine ⟨List.length_take_le 3 _, fun x hx => ?_⟩
          exact List.of_mem_filter (List.take_subset 3 _ hx)
  · intro hb
    unfold analyzeHandler
    rw [if_pos hb]

/-- Witness for C10 (amended) at a concrete request: the clamp applies to
the created maxDepth value 3, and the retained competitor list is bounded
and valid. -/
theorem C10_witness :
    ((1 : ℚ) ≤ 3 ∧ (3 : ℚ) ≤ 3) ∧
    (["https://a.example", "HTTP://b.example", "https://c.example"].length ≤ 3 ∧
      ∀ x ∈ ["https://a.example", "HTTP://b.example", "https://c.example"],
        isHttpUrl x = true) := by
  have h := (C10_analyze_validation exAnalyzeReq).1 "https://ok.example" (JSNum.num 3)
    (some ["https://a.example", "HTTP://b.example", "https://c.example"]) (by decide)
  exact ⟨h.1 3 rfl, h.2.2.1 _ rfl⟩

/-! ## C8: run diff (modelled from the spec — jsonStore.ts is not in the
source snapshot) -/

/-- Claim C8: for two known runs, `added ∪ unchanged` is exactly B's digest
set and `removed ∪ unchanged` exactly A's, with `added`/`removed` disjoint
from `unchanged`; an unknown run id on either side yields empty sets rather
than an error. -/
theorem C8_diff_complete (runs : List RunMeta) (idA idB : String) :
    (∀ a b, findRun runs idA = some a → findRun runs idB = some b →
      (diffRuns runs idA idB).added ∪ (diffRuns runs idA idB).unchanged =
        b.digests ∧
      (diffRuns runs idA idB).removed ∪ (diffRuns runs idA idB).unchanged =
        a.digests ∧
      (diffRuns runs idA idB).added ∩ (diffRuns runs idA idB).unchanged = ∅ ∧
      (diffRuns runs idA idB).removed ∩ (diffRuns runs idA idB).unchanged = ∅) ∧
    ((findRun runs idA = none ∨ findRun runs idB = none) →
      diffRuns runs idA idB = ⟨∅, ∅, ∅⟩) := by
  constructor
  · intro a b ha hb
    simp only [diffRuns, ha, hb]
    refine ⟨?_, ?_, ?_, ?_⟩
    · rw [Finset.inter_comm]
      exact Finset.sdiff_union_inter b.digests a.digests
    · exact Finset.sdiff_union_inter a.digests b.digests
    · ext x
      simp only [Finset.mem_inter, Finset.mem_sdiff, Finset.not_mem_empty, iff_false]
      tauto
    · ext x
      simp only [Finset.mem_inter, Finset.mem_sdiff, Finset.not_mem_empty, iff_false]
      tauto
  · intro h
    rcases h with h | h
    · rcases hB : findRun runs idB with _ | b <;> simp [diffRuns, h, hB]
    · rcases hA : findRun runs idA with _ | a <;> simp [diffRuns, h, hA]

/-- Witness for C8 at the spec's scenario: A = {x, y}, B = {y, z}. -/
theorem C8_witness :
    (diffRuns exRuns "A" "B").added ∪ (diffRuns exRuns "A" "B").unchanged =
      ({"y", "z"} : Finset String) ∧
    (diffRuns exRuns "A" "B").removed ∪ (diffRuns exRuns "A" "B").unchanged =
      ({"x", "y"} : Finset String) ∧
    (diffRuns exRuns "A" "B").added ∩ (diffRuns exRuns "A" "B").unchanged = ∅ ∧
    (diffRuns exRuns "A" "B").removed ∩ (diffRuns exRuns "A" "B").unchanged = ∅ :=
  (C8_diff_complete exRuns "A" "B").1
    { id := "A", digests := {"x", "y"} } { id := "B", digests := {"y", "z"} } rfl rfl

end AgenticUX
